import Mathlib

/-!
# Verification of the dungeon-master core (dice engine, session orchestrator, decision engine)

Shallow embedding of `backend/app/utils/dice.py`,
`backend/app/models/multiplayer_session.py`, `backend/app/models/ai_players.py`,
`backend/app/api/multiplayer.py` and `backend/app/services/agentic_ai.py`.

Randomness (`random.randint`, `random.choice`, `random.shuffle`) is modelled by an
injected stream `rng : Nat → Nat`: the `i`-th draw is an arbitrary natural number that
each primitive reduces into its own range (`randint(1, n)` becomes `1 + rng i % n`,
which succeeds exactly when `1 ≤ n`, matching the `ValueError` raised by an empty
range).  Python's unbounded `int` is `Nat`/`Int`.  A Python function that can raise
returns `Option` (`none` = exception).
-/

namespace AIDM

/-! ## Character / digit helpers

Python-side string primitives (`str.lower`, `f"{n}"`, substring tests) modelled
over `List Char`. -/

/-- Value of a list of decimal digit characters, most significant first
(what `int()` computes on a digit string). -/
def digitsVal (ds : List Char) : Nat :=
  ds.foldl (fun a c => 10 * a + (c.toNat - 48)) 0

/-- Decimal digit characters of a natural number, most significant first
(what Python's `f"{n}"` prints for a nonnegative integer).  Structural
recursion on a fuel bound so that the definition evaluates by kernel
reduction; `natToChars` supplies sufficient fuel. -/
def natToCharsGo : Nat → Nat → List Char
  | 0, _ => []
  | fuel + 1, n =>
    if n < 10 then [Char.ofNat (48 + n)]
    else natToCharsGo fuel (n / 10) ++ [Char.ofNat (48 + n % 10)]

def natToChars (n : Nat) : List Char := natToCharsGo (n + 1) n

/-- Decimal representation of an integer (what Python's `f"{i}"` prints). -/
def intToChars (i : Int) : List Char :=
  if i < 0 then '-' :: natToChars i.natAbs else natToChars i.toNat

/-- Does `hay` start with `pat`? -/
def startsWith : List Char → List Char → Bool
  | _, [] => true
  | [], _ :: _ => false
  | c :: t, p :: ps => c == p && startsWith t ps

/-- Does `pat` occur as a contiguous substring of `hay`?  (Python's `in` on strings.) -/
def containsSub (hay pat : List Char) : Bool :=
  match hay with
  | [] => pat.isEmpty
  | _ :: t => startsWith hay pat || containsSub t pat

/-- Python's `str.replace(pat, rep)`: replace every non-overlapping occurrence,
scanning left to right (no-op when `pat` is empty, per the guard at each use
site).  Structural recursion on a fuel bound (each step consumes at least one
character of `hay`, so `hay.length` fuel suffices). -/
def replaceSubGo (pat rep : List Char) : Nat → List Char → List Char
  | 0, _ => []
  | _, [] => []
  | fuel + 1, c :: t =>
    if pat ≠ [] ∧ startsWith (c :: t) pat = true then
      rep ++ replaceSubGo pat rep fuel ((c :: t).drop pat.length)
    else
      c :: replaceSubGo pat rep fuel t

def replaceSub (hay pat rep : List Char) : List Char :=
  replaceSubGo pat rep hay.length hay

/-- `any(word in s for word in ws)` on lowercased text. -/
def anyWordIn (s : List Char) (ws : List (List Char)) : Bool :=
  ws.any (fun w => containsSub s w)

/-! ## Dice engine (`backend/app/utils/dice.py`) -/

/-- `DiceRoll` dataclass.  The Python `individual_rolls` list is heterogeneous: its
numeric entries are kept in `individual_rolls`, and the trailing annotation string
that the advantage/disadvantage path appends (`"(advantage: N)"`) is kept in
`annot`. `dice_str` is the source's `dice_notation` field (renamed: Lean keyword). -/
structure DiceRoll where
  dice_str : String
  individual_rolls : List Nat
  annot : Option String := none
  total : Int
  modifier : Int := 0
  advantage : Bool := false
  disadvantage : Bool := false
  critical : Bool := false
deriving Repr, DecidableEq

/-- `DiceEngine.roll_single_die`: `random.randint(1, sides)`.  Raises (`none`)
on an empty range, i.e. unless `1 ≤ sides`; otherwise the injected draw `r`
is reduced into `[1, sides]`. -/
def roll_single_die (sides : Nat) (r : Nat) : Option Nat :=
  if 1 ≤ sides then some (1 + r % sides) else none

/-- Preprocessing in `DiceEngine.parse_dice_notation`:
`notation.replace(" ", "").lower()`. -/
def preprocess (s : String) : List Char :=
  (s.toList.filter (fun c => c != ' ')).map Char.toLower

/-- The optional third group `([+-]\d+)?` of the regex, matched against what
remains after the sides digits: a sign character followed by a greedy nonempty
digit run, `none` when the group is absent.  (`headD ' '` stands for "first
character, if any": a space can never occur here, so the default never matches
a sign.) -/
def parseModPart (rest : List Char) : Option Int :=
  if rest.headD ' ' = '+' then
    let ds := rest.tail.takeWhile Char.isDigit
    if ds = [] then none else some (Int.ofNat (digitsVal ds))
  else if rest.headD ' ' = '-' then
    let ds := rest.tail.takeWhile Char.isDigit
    if ds = [] then none else some (-(Int.ofNat (digitsVal ds)))
  else none

/-- The regex step of `DiceEngine.parse_dice_notation`:
`re.match(r'(\d+)?d(\d+)([+-]\d+)?', cs)` with each group extracted.
`re.match` anchors at the start only, so trailing characters are ignored;
each `\d+` is greedy, which the `takeWhile` runs reproduce (a shorter digit
run is never followed by the required non-digit character, so no backtracking
can succeed where the greedy run fails). -/
def matchDice (cs : List Char) : Option (Option Nat × Nat × Option Int) :=
  let a := cs.takeWhile Char.isDigit
  let rest := cs.dropWhile Char.isDigit
  if rest.headD ' ' = 'd' then
    let r2 := rest.tail
    let b := r2.takeWhile Char.isDigit
    if b = [] then none
    else
      some (if a = [] then none else some (digitsVal a), digitsVal b,
        parseModPart (r2.dropWhile Char.isDigit))
  else none

/-- `DiceEngine.parse_dice_notation` (renamed: `notation` is a Lean keyword):
returns `(count, sides, modifier)` with `count` defaulting to 1 and `modifier`
to 0 when their groups are absent; `none` models the raised `ValueError`. -/
def parse_dice_string (s : String) : Option (Nat × Nat × Int) :=
  (matchDice (preprocess s)).map (fun x => (x.1.getD 1, x.2.1, x.2.2.getD 0))

/-- The list comprehension `[roll_single_die(sides) for _ in range(count)]`,
drawing from the stream starting at index `start`. -/
def rollList (sides : Nat) (rng : Nat → Nat) (start : Nat) : Nat → Option (List Nat)
  | 0 => some []
  | n + 1 => do
    let r ← roll_single_die sides (rng start)
    let rest ← rollList sides rng (start + 1) n
    pure (r :: rest)

/-- `DiceEngine.roll_dice`. -/
def roll_dice (s : String) (advantage : Bool := false) (disadvantage : Bool := false)
    (rng : Nat → Nat := fun _ => 0) : Option DiceRoll := do
  let (count, sides, modifier) ← parse_dice_string s
  if (advantage || disadvantage) && sides == 20 && count == 1 then
    let roll1 ← roll_single_die sides (rng 0)
    let roll2 ← roll_single_die sides (rng 1)
    let selected_roll := if advantage then max roll1 roll2 else min roll1 roll2
    let tag := if advantage then "advantage: " else "disadvantage: "
    some { dice_str := s
           individual_rolls := [roll1, roll2]
           annot := some ("(" ++ tag ++ String.mk (natToChars selected_roll) ++ ")")
           total := (selected_roll : Int) + modifier
           modifier := modifier
           advantage := advantage
           disadvantage := disadvantage
           critical := selected_roll == 20 }
  else
    let individual_rolls ← rollList sides rng 0 count
    some { dice_str := s
           individual_rolls := individual_rolls
           total := (individual_rolls.sum : Int) + modifier
           modifier := modifier
           advantage := advantage
           disadvantage := disadvantage
           critical := sides == 20 && individual_rolls.length == 1
                        && individual_rolls.headD 0 == 20 }

/-- `DiceEngine.roll_damage`: on a critical hit, re-renders the notation with the
die count doubled — Python's `f"{count * 2}d{sides}+{modifier}"` — and resolves
that. -/
def roll_damage (damage_dice : String) (critical : Bool := false)
    (rng : Nat → Nat := fun _ => 0) : Option DiceRoll :=
  if critical then
    match parse_dice_string damage_dice with
    | none => none
    | some (count, sides, modifier) =>
      let critStr := String.mk
        (natToChars (count * 2) ++ 'd' :: natToChars sides ++ '+' :: intToChars modifier)
      match roll_dice critStr false false rng with
      | none => none
      | some r => some { r with critical := true }
  else
    roll_dice damage_dice false false rng

/-! ## AI players (`backend/app/models/ai_players.py`) -/

inductive AIPlayerClass
  | warrior | mage | rogue | cleric
deriving Repr, DecidableEq

inductive AIPersonality
  | brave | cautious | witty | wise | aggressive | protective
deriving Repr, DecidableEq

/-- `AIPlayer` dataclass.  The purely descriptive constant strings
(`voice_description`, `personality_traits`, `combat_style`, `roleplay_style`,
`weapons`, `armor`, `items`) are never branched on by any modelled operation
and are elided. -/
structure AIPlayer where
  name : String
  player_class : AIPlayerClass
  personality : AIPersonality
  voice_id : String
  level : Nat := 1
  hp : Nat := 100
  max_hp : Nat := 100
  ac : Nat := 15
deriving Repr, DecidableEq

/-- `AIPlayerManager._create_default_party`, as the list
`get_party_members` returns (Python dict preserves insertion order). -/
def default_party : List AIPlayer :=
  [ { name := "Thorgar Ironbeard", player_class := .warrior, personality := .brave,
      voice_id := "dwarf_warrior", level := 3, hp := 120, max_hp := 120, ac := 18 },
    { name := "Elara Moonwhisper", player_class := .mage, personality := .wise,
      voice_id := "elf_mage", level := 3, hp := 80, max_hp := 80, ac := 12 },
    { name := "Zara Swiftblade", player_class := .rogue, personality := .witty,
      voice_id := "human_rogue", level := 3, hp := 90, max_hp := 90, ac := 16 },
    { name := "Brother Marcus", player_class := .cleric, personality := .protective,
      voice_id := "wise_elder", level := 3, hp := 100, max_hp := 100, ac := 16 } ]

/-- `get_ai_players()`. -/
def get_ai_players : List AIPlayer := default_party

/-- Lowercased characters of a string (Python's `s.lower()` for the ASCII
strings that occur here). -/
def lowerChars (s : String) : List Char := s.toList.map Char.toLower

/-- `AIPlayerManager.get_player_by_name`: case-insensitive lookup in the party. -/
def get_player_by_name (party : List AIPlayer) (nm : String) : Option AIPlayer :=
  party.find? (fun p => lowerChars p.name == lowerChars nm)

/-- The situation classification at the top of `_create_character_response`. -/
def situationType (situation : String) : String :=
  let lo := lowerChars situation
  if anyWordIn lo ["fight".toList, "combat".toList, "attack".toList,
                   "enemy".toList, "battle".toList] then "combat"
  else if anyWordIn lo ["talk".toList, "speak".toList, "negotiate".toList,
                        "conversation".toList, "meet".toList] then "social"
  else "exploration"

/-- The `personality_responses` table of `_create_character_response`:
3 canned lines per (personality, situation) pair, for the four personalities
present in the table.  `none` models a missing dictionary key. -/
def personality_responses (p : AIPersonality) (situ : String) : Option (List String) :=
  match p with
  | .brave =>
    if situ = "combat" then some
      [ "Let's charge in and show them what we're made of!",
        "I'll lead the charge! Follow me, companions!",
        "No enemy can stand against our united strength!" ]
    else if situ = "exploration" then some
      [ "I say we press forward! Adventure awaits!",
        "Whatever lies ahead, we'll face it together!",
        "Bold action is the path to glory!" ]
    else if situ = "social" then some
      [ "Let me speak for the party - we mean business!",
        "We stand united in our cause!",
        "Honor and courage guide our path!" ]
    else none
  | .wise =>
    if situ = "combat" then some
      [ "Let us think strategically about this encounter.",
        "Knowledge of our foe will serve us better than rash action.",
        "Ancient wisdom teaches patience in battle." ]
    else if situ = "exploration" then some
      [ "These ancient markings suggest we should proceed carefully.",
        "The arcane energies here are... unusual. We must be cautious.",
        "My studies have prepared me for such mysteries." ]
    else if situ = "social" then some
      [ "Perhaps diplomacy would serve us better than force.",
        "Let us hear all perspectives before deciding.",
        "Wisdom often lies in understanding others." ]
    else none
  | .witty =>
    if situ = "combat" then some
      [ "Well, this looks like fun! Anyone else excited about potential death?",
        "I vote we try the 'not dying' strategy. Anyone else on board?",
        "Great, another chance to test my running speed!" ]
    else if situ = "exploration" then some
      [ "Nothing says 'adventure' like a suspiciously convenient entrance!",
        "I love when ancient places look this welcoming and safe.",
        "What could possibly go wrong? Famous last words, party!" ]
    else if situ = "social" then some
      [ "I'm sure this conversation will go perfectly smoothly.",
        "Let me handle this with my legendary charm and tact.",
        "Time to deploy my secret weapon: sarcasm!" ]
    else none
  | .protective =>
    if situ = "combat" then some
      [ "Stay close, my friends. I'll keep you safe.",
        "May the divine light protect us in this battle.",
        "I call upon sacred power to shield our party!" ]
    else if situ = "exploration" then some
      [ "Let me check for dangers before we proceed.",
        "The gods watch over righteous travelers.",
        "I sense we are not alone here. Stay vigilant." ]
    else if situ = "social" then some
      [ "Let us approach with open hearts and peaceful intent.",
        "All souls deserve compassion and understanding.",
        "May we find common ground in this exchange." ]
    else none
  | _ => none

/-- `random.choice(l)`: picks the element at an arbitrary draw reduced mod the
length; raises (`headD` is never reached) only on an empty list, which no call
site produces. -/
def pyChoice (l : List String) (r : Nat) : String :=
  l.getD (r % l.length) ""

/-- `AIPlayerManager._create_character_response`.  Consumes up to two draws:
`r1` for `random.choice` among the canned lines, `r2` for the warrior coin flip
`random.choice([True, False])`. -/
def _create_character_response (player : AIPlayer) (situation : String)
    (r1 r2 : Nat) : String :=
  let situ := situationType situation
  let responses := (personality_responses player.personality situ).getD
    [player.name ++ " considers the situation carefully."]
  let base_response := pyChoice responses r1
  if player.player_class = .warrior then
    if !(containsSub (lowerChars base_response) "ye".toList)
        && (r2 % 2 == 0) then
      String.mk (replaceSub
        (replaceSub base_response.toList "you".toList "ye".toList)
        "your".toList "yer".toList)
    else base_response
  else base_response

/-- `AIPlayerManager._determine_action_type`. -/
def _determine_action_type (player : AIPlayer) (situation : String) : String :=
  let lo := lowerChars situation
  if anyWordIn lo ["fight".toList, "combat".toList, "attack".toList, "enemy".toList] then
    match player.player_class with
    | .warrior => "melee_attack"
    | .mage => "cast_spell"
    | .rogue => "sneak_attack"
    | .cleric => "support_party"
  else if anyWordIn lo ["heal".toList, "hurt".toList, "injured".toList, "damage".toList] then
    if player.player_class = .cleric then "heal_party" else "roleplay"
  else if anyWordIn lo ["investigate".toList, "search".toList, "explore".toList] then
    if player.player_class = .rogue then "search_area" else "roleplay"
  else "roleplay"

/-- The dictionary `AIPlayerManager.generate_ai_response` returns on success. -/
structure AIResponse where
  player_name : String
  player_class : AIPlayerClass
  personality : AIPersonality
  voice_id : String
  response : String
  action_type : String
  voice_ready : Bool := true
  hp : Nat
  max_hp : Nat
  ac : Nat
  level : Nat
deriving Repr, DecidableEq

/-- `generate_ai_player_response` / `AIPlayerManager.generate_ai_response`:
`none` models the `{"error": "Player not found"}` dictionary. -/
def generate_ai_player_response (player_name situation : String)
    (r1 r2 : Nat) : Option AIResponse :=
  match get_player_by_name get_ai_players player_name with
  | none => none
  | some player => some
    { player_name := player.name
      player_class := player.player_class
      personality := player.personality
      voice_id := player.voice_id
      response := _create_character_response player situation r1 r2
      action_type := _determine_action_type player situation
      hp := player.hp
      max_hp := player.max_hp
      ac := player.ac
      level := player.level }

/-! ## Multiplayer sessions (`backend/app/models/multiplayer_session.py`) -/

inductive SessionState
  | waiting | active | combat | exploration | social | paused | completed
deriving Repr, DecidableEq

inductive TurnType
  | human | ai | dm
deriving Repr, DecidableEq

/-- `GameTurn` dataclass (the wall-clock `timestamp`, the `audio_file`
attachment and the `dice_rolls` list — never written by any modelled
operation — are elided). -/
structure GameTurn where
  turn_id : String
  player_name : String
  player_type : TurnType
  action : String
  dialogue : String
  voice_id : Option String := none
deriving Repr, DecidableEq

/-- Fisher–Yates-style permutation driven by the injected draw stream,
modelling `random.shuffle` (which permutes its argument in place). -/
def pyShuffleGo (rng : Nat → Nat) : Nat → Nat → List String → List String
  | _, 0, _ => []
  | _, _, [] => []
  | i, fuel + 1, l =>
    let k := rng i % l.length
    match l[k]? with
    | none => []
    | some x => x :: pyShuffleGo rng (i + 1) fuel (l.eraseIdx k)

def pyShuffle (l : List String) (rng : Nat → Nat) : List String :=
  pyShuffleGo rng 0 l.length l

/-- `MultiplayerSession` dataclass (`created_at` is wall clock, elided;
`session_scenarios` of the manager is dead configuration, elided). -/
structure MultiplayerSession where
  session_id : String
  human_player_name : String
  session_state : SessionState := .waiting
  campaign_title : String := "The Enchanted Caverns"
  current_scene : String := "The party stands before a mysterious cave entrance..."
  ai_players : List AIPlayer := []
  turn_order : List String := []
  current_turn_index : Nat := 0
  party_level : Nat := 3
  party_gold : Nat := 150
  current_location : String := "Forest Clearing"
  game_turns : List GameTurn := []
  voice_mode : Bool := true
  total_turns : Nat := 0
deriving Repr, DecidableEq

/-- `MultiplayerSession._initialize_turn_order`.  The Python line
`random.shuffle(self.turn_order[1:])` slices the tail into a FRESH list,
shuffles that copy in place, and discards it; the session's own
`turn_order` is left untouched.  The discarded shuffle is kept here so the
definition mirrors the source line for line. -/
def _initialize_turn_order (human_player_name : String) (ai_players : List AIPlayer)
    (rng : Nat → Nat) : List String :=
  let turn_order := human_player_name :: ai_players.map AIPlayer.name
  let _discarded := pyShuffle (turn_order.drop 1) rng
  turn_order

/-- `MultiplayerSession.__post_init__` on a session built with neither
`ai_players` nor `turn_order` supplied (as `create_session` builds it). -/
def mkSession (session_id human_player_name : String) (voice_mode : Bool)
    (session_state : SessionState) (rng : Nat → Nat) : MultiplayerSession :=
  let ai_players := get_ai_players
  { session_id := session_id
    human_player_name := human_player_name
    session_state := session_state
    ai_players := ai_players
    turn_order := _initialize_turn_order human_player_name ai_players rng
    voice_mode := voice_mode }

/-- The session store: `MultiplayerSessionManager.active_sessions`
(a dict keyed by session id, insertion-ordered). -/
abbrev Manager := List (String × MultiplayerSession)

/-- `self.active_sessions.get(session_id)` (`MultiplayerSessionManager.get_session`). -/
def get_session : Manager → String → Option MultiplayerSession
  | [], _ => none
  | (k, s) :: t, session_id =>
    if k == session_id then some s else get_session t session_id

/-- In-place mutation of the stored session object: every entry holding the
given id is updated (a Python dict has at most one). -/
def setSession : Manager → String → MultiplayerSession → Manager
  | [], _, _ => []
  | (k, old) :: t, session_id, s =>
    if k == session_id then (k, s) :: setSession t session_id s
    else (k, old) :: setSession t session_id s

/-- One of the three records in `_generate_opening_scene`'s
`opening_scenarios` list (only the fields the session keeps). -/
structure OpeningScene where
  title : String
  description : String
deriving Repr, DecidableEq

def opening_scenes : List OpeningScene :=
  [ { title := "🏰 The Enchanted Caverns",
      description := "Your party of brave adventurers stands before the entrance to the legendary Enchanted Caverns. Ancient runes glow faintly on the stone archway, and a cool breeze carries whispers of forgotten magic from within." },
    { title := "🐉 The Dragon's Lair",
      description := "The mountain path has led your party to a massive cavern filled with glittering treasure. But somewhere in the darkness, you hear the slow, rhythmic breathing of something immense and ancient." },
    { title := "🏛️ The Lost Temple",
      description := "After days of searching, your party has discovered the Lost Temple of Aethros. Vines have claimed much of the ancient structure, but the magical aura emanating from within suggests powerful artifacts still remain." } ]

/-- `MultiplayerSessionManager._generate_opening_scene`: `random.choice` of a
scenario, whose title and description are written into the session. -/
def _generate_opening_scene (s : MultiplayerSession) (r : Nat) : MultiplayerSession :=
  let sc := opening_scenes.getD (r % opening_scenes.length)
    { title := "", description := "" }
  { s with campaign_title := sc.title, current_scene := sc.description }

/-- Python dict assignment `self.active_sessions[session_id] = session`:
overwrite in place when the key exists, else append. -/
def dictSet (mgr : Manager) (k : String) (v : MultiplayerSession) : Manager :=
  if (get_session mgr k).isSome then setSession mgr k v else mgr ++ [(k, v)]

/-- `MultiplayerSessionManager.create_session`.  The fresh session id comes from
the injected supply `uuid` (Python: `str(uuid.uuid4())[:8]`); `rngShuffle` feeds
the (discarded) turn-order shuffle and `rScene` the opening-scene choice.
Returns the updated store and the created session. -/
def create_session (mgr : Manager) (human_player_name : String) (voice_mode : Bool)
    (uuid : String) (rngShuffle : Nat → Nat) (rScene : Nat) :
    Manager × MultiplayerSession :=
  let s := mkSession uuid human_player_name voice_mode .active rngShuffle
  let mgr := dictSet mgr uuid s
  let s := _generate_opening_scene s rScene
  (setSession mgr uuid s, s)

/-- `MultiplayerSessionManager._generate_dm_response` (returned dictionary,
narration/dice fields only — it reads but never writes the session). -/
structure DMResponse where
  dm_narration : String
  voice_id : String := "dm_narrator"
  dice_result : Option (Nat × Nat) := none
deriving Repr, DecidableEq

def dm_response_lines (key : String) : List String :=
  if key = "investigate" then
    [ "As you examine the area more closely, you notice...",
      "Your keen observation reveals something interesting...",
      "Looking carefully, you discover..." ]
  else if key = "attack" then
    [ "Roll for initiative! Combat begins!",
      "Your weapon strikes true!",
      "The battle is fierce and chaotic!" ]
  else if key = "talk" then
    [ "Your words carry weight in this moment...",
      "The conversation takes an interesting turn...",
      "Your diplomatic approach yields results..." ]
  else
    [ "As you venture forward, the path reveals...",
      "Your exploration uncovers new mysteries...",
      "The journey continues with unexpected discoveries..." ]

/-- Response-type detection in `_generate_dm_response`: first key of the
response table contained in the lowercased action, defaulting to `"explore"`. -/
def dmResponseType (player_action : String) : String :=
  let lo := lowerChars player_action
  if containsSub lo "investigate".toList then "investigate"
  else if containsSub lo "attack".toList then "attack"
  else if containsSub lo "talk".toList then "talk"
  else "explore"

def _generate_dm_response (player_action : String) (r1 r2 r3 : Nat) : DMResponse :=
  let base_response := pyChoice (dm_response_lines (dmResponseType player_action)) r1
  let lo := lowerChars player_action
  let dice :=
    if anyWordIn lo ["check".toList, "roll".toList, "attempt".toList] then
      some (1 + r2 % 20, r3 % 6)
    else none
  { dm_narration := base_response, dice_result := dice }

/-- The success dictionary of `process_player_action` (the echoed
`human_action` triple and `party_stats` projection are recomputable from the
arguments and the stored session and are elided). -/
structure ProcessResult where
  session_id : String
  ai_responses : List AIResponse
  dm_response : DMResponse
  current_turn : String
  turn_number : Nat
  voice_mode : Bool
deriving Repr, DecidableEq

/-- The loop body of `process_player_action`'s `for ai_player in
session.ai_players:` — one companion reaction appended as one AI turn record.
`i` is the companion's position (fresh-id index and draw offsets); the
`.get(...)` defaults in the source cover the error-dictionary case of
`generate_ai_player_response`. -/
def companion_step (situation : String) (uuid : Nat → String) (rng : Nat → Nat)
    (acc : MultiplayerSession × List AIResponse) (ip : Nat × AIPlayer) :
    MultiplayerSession × List AIResponse :=
  let (session, ai_responses) := acc
  let (i, ai_player) := ip
  let resp := generate_ai_player_response ai_player.name situation
    (rng (2 * i)) (rng (2 * i + 1))
  let ai_turn : GameTurn :=
    { turn_id := uuid (i + 1)
      player_name := ai_player.name
      player_type := .ai
      action := (resp.map AIResponse.action_type).getD "roleplay"
      dialogue := (resp.map AIResponse.response).getD ""
      voice_id := resp.map AIResponse.voice_id }
  ({ session with game_turns := session.game_turns ++ [ai_turn] },
    ai_responses ++ resp.toList)

/-- `MultiplayerSessionManager.process_player_action`.  `uuid i` supplies the
`i`-th fresh turn id of this call; `rng` drives the companions' template picks
(two draws per companion) and `rngDM` the DM-response draws.  Returns the
updated store and `none` for the `{"error": "Session not found"}` dictionary. -/
def process_player_action (mgr : Manager) (session_id player_name action dialogue : String)
    (uuid : Nat → String) (rng : Nat → Nat) (rngDM : Nat → Nat) :
    Manager × Option ProcessResult :=
  match get_session mgr session_id with
  | none => (mgr, none)
  | some session =>
    let human_turn : GameTurn :=
      { turn_id := uuid 0
        player_name := player_name
        player_type := .human
        action := action
        dialogue := dialogue }
    let session := { session with game_turns := session.game_turns ++ [human_turn] }
    let situation := if dialogue ≠ "" then action ++ ". " ++ dialogue else action
    let (session, ai_responses) :=
      session.ai_players.enum.foldl (companion_step situation uuid rng) (session, [])
    let dm := _generate_dm_response action (rngDM 0) (rngDM 1) (rngDM 2)
    let session :=
      { session with
        current_turn_index := (session.current_turn_index + 1) % session.turn_order.length
        total_turns := session.total_turns + 1 }
    (setSession mgr session_id session,
      some { session_id := session_id
             ai_responses := ai_responses
             dm_response := dm
             current_turn := session.turn_order.getD session.current_turn_index ""
             turn_number := session.total_turns
             voice_mode := session.voice_mode })

/-- `N` successive `process_player_action` calls for the same session id
(the end-to-end scenario of the spec's testable properties); the injected
id/draw streams are indexed by the call number. -/
def iterateProcess (sid pname act dlg : String) (uuid : Nat → Nat → String)
    (rng rngDM : Nat → Nat → Nat) : Nat → Manager → Manager
  | 0, mgr => mgr
  | n + 1, mgr =>
    iterateProcess sid pname act dlg uuid rng rngDM n
      (process_player_action mgr sid pname act dlg (uuid n) (rng n) (rngDM n)).1

/-! ## Voice-mode toggle (`backend/app/api/multiplayer.py`, `toggle_voice_mode`) -/

/-- `toggle_voice_mode`: 404 (`none`) when the session is unknown, otherwise
`session.voice_mode = not session.voice_mode` on the stored session; the
response echoes the new flag. -/
def toggle_voice_mode (mgr : Manager) (session_id : String) : Manager × Option Bool :=
  match get_session mgr session_id with
  | none => (mgr, none)
  | some session =>
    let session := { session with voice_mode := !session.voice_mode }
    (setSession mgr session_id session, some session.voice_mode)

/-! ## Decision engine (`backend/app/services/agentic_ai.py`) -/

/-- The world-state dictionary of `AgenticDungeonMaster._initialize_world_state`
(categorical fields as strings, pressure scalars as rationals — Python floats
whose arithmetic here is exact since every operation is addition or
subtraction of 0.1 followed by a clamp). -/
structure WorldState where
  current_location : String := "The Prancing Pony Tavern"
  time_of_day : String := "evening"
  weather : String := "clear"
  season : String := "autumn"
  political_tension : ℚ := 3/10
  magical_activity : ℚ := 4/10
  economic_state : ℚ := 6/10
  active_threats : List String := []
  rumors_and_news : List String := []
  ongoing_events : List String := []
deriving Repr, DecidableEq

/-- `_initialize_world_state()`. -/
def initialize_world_state : WorldState := {}

/-- The world-state portion of `_update_memory_and_world_state` (lines 672–675):
the tension-adjustment verdict of this cycle's decisions nudges
`political_tension` by the fixed step 0.1, clamped to `[0, 1]`; any other
verdict (including `"maintain"` and a missing key, `none`) leaves the world
state unchanged.  The surrounding conversation-context / memory bookkeeping in
the same method never writes the world state. -/
def update_world_tension (ws : WorldState) (tension_adjustment : Option String) :
    WorldState :=
  if tension_adjustment == some "increase" then
    { ws with political_tension := min 1 (ws.political_tension + 1/10) }
  else if tension_adjustment == some "reduce" then
    { ws with political_tension := max 0 (ws.political_tension - 1/10) }
  else ws

/-- The `player_behavior_model` dictionary.  `preferred_play_style` starts as
the string `"unknown"`. -/
structure PlayerBehaviorModel where
  preferred_play_style : String := "unknown"
  risk_tolerance : ℚ := 1/2
  narrative_preference : String := "unknown"
  interaction_frequency : ℚ := 1/2
  character_attachment : ℚ := 1/2
deriving Repr, DecidableEq

/-- A value stored in an analysis dictionary: a number (Python `int` / `float` /
`bool`), a string, or anything else (`list`, `dict`, `None`, …). -/
inductive AnalysisValue
  | num (q : ℚ)
  | text (s : String)
  | other
deriving Repr, DecidableEq

/-- An analysis record: the keys the modelled functions read.  `none` models an
absent key. -/
structure Analysis where
  explicit_intent : Option AnalysisValue := none
  implicit_intent : Option AnalysisValue := none
  emotional_state : Option AnalysisValue := none
  play_style : Option AnalysisValue := none
  risk_tolerance : Option AnalysisValue := none
  character_attachment : Option AnalysisValue := none
  narrative_preference : Option AnalysisValue := none
  interaction_level : Option AnalysisValue := none
deriving Repr, DecidableEq

/-- The textual-qualifier mapping `_normalize_analysis_values` applies to one
string value: the listed keywords (substring tests on the lowercased text)
map to 0.8 / 0.3 / 0.5, anything else to the 0.5 default. -/
def normalizeText (highWords lowWords midWords : List String) (s : String) : ℚ :=
  let lo := lowerChars s
  if anyWordIn lo (highWords.map String.toList) then 8/10
  else if anyWordIn lo (lowWords.map String.toList) then 3/10
  else if anyWordIn lo (midWords.map String.toList) then 1/2
  else 1/2

/-- Normalization of a single analysis value: only strings are converted;
numbers and any other type pass through untouched. -/
def normalizeValue (highWords lowWords midWords : List String) :
    Option AnalysisValue → Option AnalysisValue
  | some (.text s) => some (.num (normalizeText highWords lowWords midWords s))
  | v => v

/-- `AgenticDungeonMaster._normalize_analysis_values`. -/
def _normalize_analysis_values (a : Analysis) : Analysis :=
  { a with
    risk_tolerance :=
      normalizeValue ["high", "bold", "aggressive"] ["low", "cautious", "careful"]
        ["medium", "moderate"] a.risk_tolerance
    character_attachment :=
      normalizeValue ["high", "strong", "invested"] ["low", "detached"]
        ["moderate", "medium"] a.character_attachment
    interaction_level :=
      normalizeValue ["high", "active", "engaged"] ["low", "passive"]
        ["moderate", "medium"] a.interaction_level }

/-- Python truthiness of an analysis value (`if analysis.get("play_style"):`).
For `other` (a non-empty container in every occurring case) it is `true`. -/
def truthy : AnalysisValue → Bool
  | .num q => q ≠ 0
  | .text s => s ≠ ""
  | .other => true

/-- `float(x) if isinstance(x, (int, float, str)) else 0.5`, the conversion
applied to each observed value in `_update_player_behavior_model`.
`floatOfStr` stands for the Python `float()` parser on strings (an external
library routine; `none` = `ValueError`).  Numbers pass through and any other
type falls back to 0.5. -/
def observedValue (floatOfStr : String → Option ℚ) : AnalysisValue → Option ℚ
  | .num q => some q
  | .text s => floatOfStr s
  | .other => some (1/2)

/-- The `play_style` step of `_update_player_behavior_model`: when the key is
present and truthy and the current preferred style is `"unknown"`, set it once
(the value every tier produces for this key is a string). -/
def playStyleStep (m : PlayerBehaviorModel) : Option AnalysisValue → PlayerBehaviorModel
  | some v =>
    if truthy v ∧ m.preferred_play_style = "unknown" then
      { m with preferred_play_style :=
          match v with
          | .text s => s
          | _ => m.preferred_play_style }
    else m
  | none => m

/-- One exponentially smoothed attribute of `_update_player_behavior_model`:
`current * (1 - alpha) + new_value * alpha` when the key is present (`none`
propagates a `float()` conversion error), the old value when absent. -/
def smoothField (floatOfStr : String → Option ℚ) (alpha old : ℚ) :
    Option AnalysisValue → Option ℚ
  | none => some old
  | some v => (observedValue floatOfStr v).map
      (fun new_value => old * (1 - alpha) + new_value * alpha)

/-- `AgenticDungeonMaster._update_player_behavior_model` with learning rate
`alpha = 0.2`.  The Python method mutates the three smoothed attributes one
after the other; the attributes are independent, so the sequential mutation is
the simultaneous record update below. -/
def _update_player_behavior_model (floatOfStr : String → Option ℚ)
    (m : PlayerBehaviorModel) (a : Analysis) : Option PlayerBehaviorModel := do
  let alpha : ℚ := 1/5
  let m := playStyleStep m a.play_style
  let rt ← smoothField floatOfStr alpha m.risk_tolerance a.risk_tolerance
  let ca ← smoothField floatOfStr alpha m.character_attachment a.character_attachment
  let il ← smoothField floatOfStr alpha m.interaction_frequency a.interaction_level
  pure { m with risk_tolerance := rt, character_attachment := ca,
                interaction_frequency := il }

/-- `AgenticDungeonMaster._basic_input_analysis`: the keyword fallback tier. -/
def _basic_input_analysis (player_input : String) : Analysis :=
  let lo := lowerChars player_input
  { explicit_intent := some (.text "perform_action")
    implicit_intent := some (.text "progress_story")
    emotional_state := some (.text "neutral")
    play_style := some (.text
      (if anyWordIn lo ["look".toList, "search".toList, "examine".toList]
       then "exploration" else "action"))
    risk_tolerance := some (.num
      (if anyWordIn lo ["attack".toList, "fight".toList, "charge".toList]
       then 7/10 else 4/10))
    character_attachment := some (.num (1/2))
    narrative_preference := some (.text "branching")
    interaction_level := some (.num (6/10)) }

/-- The rich analysis tier (`_parse_ai_analysis` on a successful JSON
extraction): the collaborator's parsed record — an arbitrary dictionary —
passed through `_normalize_analysis_values`.  The record `a` stands for the
unconstrained `json.loads` output. -/
def richTier (a : Analysis) : Analysis := _normalize_analysis_values a

/-! ## Spec-side grammar (for the notation-validity claim)

Modelled from the spec: the grammar `[count]d<sides>[(+|-)modifier]`, i.e. the
pattern `\d*d\d+([+-]\d+)?`, as a brute-force matcher that tries every
decomposition — deliberately independent of the parser above. -/

def allDigits (cs : List Char) : Bool := cs.all Char.isDigit

/-- `[+-]\d+`: a sign followed by a nonempty digit run. -/
def isModGroup (cs : List Char) : Bool :=
  match cs with
  | c :: rest => (c == '+' || c == '-') && !rest.isEmpty && allDigits rest
  | [] => false

/-- `\d+([+-]\d+)?`: some decomposition into a nonempty digit run and an
optional modifier group consuming the rest. -/
def sidesAndMod (cs : List Char) : Bool :=
  (List.range (cs.length + 1)).any (fun i =>
    !(cs.take i).isEmpty && allDigits (cs.take i) &&
      ((cs.drop i).isEmpty || isModGroup (cs.drop i)))

/-- `\d*d\d+([+-]\d+)?` matching the whole of `cs`. -/
def specFullMatch (cs : List Char) : Bool :=
  (List.range (cs.length + 1)).any (fun i =>
    allDigits (cs.take i) &&
      (match cs.drop i with
       | [] => false
       | c :: rest => c == 'd' && sidesAndMod rest))

/-- Some prefix of `cs` (the anchored-at-start, `re.match` semantics) matches
the pattern. -/
def specPfxMatch (cs : List Char) : Bool :=
  (List.range (cs.length + 1)).any (fun i => specFullMatch (cs.take i))

/-! ## Shared lemmas -/

theorem rollList_sound {sides : Nat} {rng : Nat → Nat} :
    ∀ {n start : Nat} {l : List Nat}, rollList sides rng start n = some l →
      l.length = n ∧ ∀ x ∈ l, 1 ≤ x ∧ x ≤ sides := by
  intro n
  induction n with
  | zero =>
    intro start l h
    simp only [rollList] at h
    cases h
    simp
  | succ k ih =>
    intro start l h
    simp only [rollList, roll_single_die, bind, Option.bind] at h
    by_cases hs : 1 ≤ sides
    · simp only [if_pos hs] at h
      cases hrest : rollList sides rng (start + 1) k with
      | none => rw [hrest] at h; simp at h
      | some rest =>
        rw [hrest] at h
        simp only [pure, Option.some.injEq] at h
        subst h
        obtain ⟨hlen, hmem⟩ := ih hrest
        refine ⟨by simp [hlen], ?_⟩
        intro x hx
        rcases List.mem_cons.mp hx with h1 | h2
        · subst h1
          have := Nat.mod_lt (rng start) (show 0 < sides by omega)
          omega
        · exact hmem x h2
    · simp [if_neg hs] at h

theorem rollList_length_mem {sides n start : Nat} {rng : Nat → Nat} {l : List Nat}
    (h : rollList sides rng start n = some l) :
    l.length = n := (rollList_sound h).1

/-! ## Claims -/

/-- C1.  For every notation accepted by the resolution subsystem (any count,
sides, and optional modifier), with or without advantage/disadvantage flags,
the returned outcome satisfies: total equals the sum of the die results
actually counted plus the modifier — on the advantage/disadvantage path the
counted result is the max (advantage) or min (disadvantage) of the two
recorded dice, on the standard path all recorded dice are counted — and every
individual die result lies in `[1, sides]`. -/
theorem C1_resolve_invariant (s : String) (adv dis : Bool) (rng : Nat → Nat)
    (count sides : Nat) (m : Int) (r : DiceRoll)
    (hp : parse_dice_string s = some (count, sides, m))
    (hr : roll_dice s adv dis rng = some r) :
    r.modifier = m ∧
    (∀ x ∈ r.individual_rolls, 1 ≤ x ∧ x ≤ sides) ∧
    (((adv || dis) && sides == 20 && count == 1) = true →
      ∃ d1 d2 : Nat, r.individual_rolls = [d1, d2] ∧
        r.total = ((if adv = true then max d1 d2 else min d1 d2 : Nat) : Int) + m) ∧
    (((adv || dis) && sides == 20 && count == 1) = false →
      r.total = (r.individual_rolls.sum : Int) + m) := by
  simp only [roll_dice, hp, bind, Option.bind] at hr
  by_cases hc : ((adv || dis) && sides == 20 && count == 1) = true
  · rw [if_pos hc] at hr
    have hc2 := hc
    simp only [Bool.and_eq_true, beq_iff_eq] at hc2
    obtain ⟨⟨-, hsides⟩, -⟩ := hc2
    subst hsides
    simp only [roll_single_die, if_pos (by omega : 1 ≤ 20), Option.some.injEq] at hr
    set d1 := 1 + rng 0 % 20 with hd1
    set d2 := 1 + rng 1 % 20 with hd2
    have hb1 : 1 ≤ d1 ∧ d1 ≤ 20 := by
      have := Nat.mod_lt (rng 0) (show 0 < 20 by omega); omega
    have hb2 : 1 ≤ d2 ∧ d2 ≤ 20 := by
      have := Nat.mod_lt (rng 1) (show 0 < 20 by omega); omega
    subst hr
    refine ⟨rfl, ?_, fun _ => ⟨d1, d2, rfl, rfl⟩, ?_⟩
    · intro x hx
      simp only [List.mem_cons, List.mem_singleton, List.not_mem_nil, or_false] at hx
      rcases hx with h | h <;> subst h
      · exact hb1
      · exact hb2
    · intro hfalse
      rw [hfalse] at hc
      exact absurd hc (by decide)
  · rw [if_neg hc] at hr
    cases hl : rollList sides rng 0 count with
    | none => rw [hl] at hr; simp at hr
    | some l =>
      rw [hl] at hr
      simp only [Option.some.injEq] at hr
      subst hr
      obtain ⟨-, hmem⟩ := rollList_sound hl
      exact ⟨rfl, hmem, fun htrue => absurd htrue hc, fun _ => by simp⟩

/-- Witness for C1 on both paths: the standard-path notation `"2d6+3"` (dice
`[1, 2]`, total `1 + 2 + 3`) and the advantage-path notation `"1d20"` (dice
`[1, 2]`, total `max 1 2 + 0`), each with the draw stream `fun i => i`. -/
theorem C1_resolve_invariant_witness :
    parse_dice_string "2d6+3" = some (2, 6, 3) ∧
    roll_dice "2d6+3" false false (fun i => i) =
      some { dice_str := "2d6+3", individual_rolls := [1, 2], total := 6,
             modifier := 3 } ∧
    (((false || false) && 6 == 20 && 2 == 1) = false) ∧
    (6 : Int) = (([1, 2] : List Nat).sum : Int) + 3 ∧
    parse_dice_string "1d20" = some (1, 20, 0) ∧
    roll_dice "1d20" true false (fun i => i) =
      some { dice_str := "1d20", individual_rolls := [1, 2],
             annot := some "(advantage: 2)", total := 2, modifier := 0,
             advantage := true } ∧
    (((true || false) && 20 == 20 && 1 == 1) = true) ∧
    (∃ d1 d2 : Nat, ([1, 2] : List Nat) = [d1, d2] ∧
      (2 : Int) = ((max d1 d2 : Nat) : Int) + 0) := by
  refine ⟨by decide, by decide, by decide, ?_, by decide, by decide, by decide, ?_⟩
  · have h := C1_resolve_invariant "2d6+3" false false (fun i => i) 2 6 3
      { dice_str := "2d6+3", individual_rolls := [1, 2], total := 6, modifier := 3 }
      (by decide) (by decide)
    exact h.2.2.2 (by decide)
  · have h := C1_resolve_invariant "1d20" true false (fun i => i) 1 20 0
      { dice_str := "1d20", individual_rolls := [1, 2],
        annot := some "(advantage: 2)", total := 2, modifier := 0,
        advantage := true }
      (by decide) (by decide)
    simpa using h.2.2.1 (by decide)

/-- C10.  When a resolution call on a single twenty-sided die is made with both
the advantage and the disadvantage flag set to true, the call behaves exactly
as pure advantage — two dice are rolled and the counted result is their
maximum — with the disadvantage flag having no effect on the counted result or
total (the returned record differs from the pure-advantage one only in the
echoed `disadvantage` field). -/
theorem C10_both_flags_mean_advantage (s : String) (m : Int) (rng : Nat → Nat)
    (hp : parse_dice_string s = some (1, 20, m)) :
    roll_dice s true true rng =
      (roll_dice s true false rng).map (fun r => { r with disadvantage := true }) ∧
    ∃ r, roll_dice s true true rng = some r ∧
      r.individual_rolls = [1 + rng 0 % 20, 1 + rng 1 % 20] ∧
      r.total = (max (1 + rng 0 % 20) (1 + rng 1 % 20) : Int) + m := by
  simp only [roll_dice, hp, bind, Option.bind]
  norm_num [roll_single_die]

/-- Witness for C10 at `"1d20"` and the draw stream `fun i => i`. -/
theorem C10_both_flags_mean_advantage_witness :
    parse_dice_string "1d20" = some (1, 20, 0) ∧
    roll_dice "1d20" true true (fun i => i) =
      (roll_dice "1d20" true false (fun i => i)).map
        (fun r => { r with disadvantage := true }) := by
  exact ⟨by decide, (C10_both_flags_mean_advantage "1d20" 0 (fun i => i) (by decide)).1⟩

theorem digitChar_facts {d : Nat} (h : d < 10) :
    (Char.ofNat (48 + d)).isDigit = true ∧
    Char.toLower (Char.ofNat (48 + d)) = Char.ofNat (48 + d) ∧
    (Char.ofNat (48 + d)).toNat = 48 + d ∧
    Char.ofNat (48 + d) ≠ ' ' := by
  interval_cases d <;> refine ⟨by decide, by decide, by decide, by decide⟩

theorem natToCharsGo_mem : ∀ (fuel n : Nat), n < fuel →
    ∀ c ∈ natToCharsGo fuel n, c.isDigit = true ∧ Char.toLower c = c ∧ c ≠ ' ' := by
  intro fuel
  induction fuel with
  | zero => intro n h; omega
  | succ f ih =>
    intro n h c hc
    rw [natToCharsGo] at hc
    split at hc
    · simp only [List.mem_singleton] at hc
      subst hc
      obtain ⟨h1, h2, -, h4⟩ := digitChar_facts (show n < 10 by omega)
      exact ⟨h1, h2, h4⟩
    · rcases List.mem_append.mp hc with hm | hm
      · exact ih (n / 10) (by omega) c hm
      · simp only [List.mem_singleton] at hm
        subst hm
        obtain ⟨h1, h2, -, h4⟩ := digitChar_facts (show n % 10 < 10 from Nat.mod_lt n (by omega))
        exact ⟨h1, h2, h4⟩

theorem natToChars_mem {n : Nat} :
    ∀ c ∈ natToChars n, c.isDigit = true ∧ Char.toLower c = c ∧ c ≠ ' ' :=
  natToCharsGo_mem (n + 1) n (by omega)

theorem natToChars_ne_nil {n : Nat} : natToChars n ≠ [] := by
  rw [natToChars, natToCharsGo]
  split <;> simp

theorem digitsVal_natToCharsGo : ∀ (fuel n : Nat), n < fuel →
    digitsVal (natToCharsGo fuel n) = n := by
  intro fuel
  induction fuel with
  | zero => intro n h; omega
  | succ f ih =>
    intro n h
    rw [natToCharsGo]
    split
    · simp only [digitsVal, List.foldl_cons, List.foldl_nil]
      obtain ⟨-, -, h3, -⟩ := digitChar_facts (show n < 10 by omega)
      omega
    · have hrec := ih (n / 10) (by omega)
      obtain ⟨-, -, h3, -⟩ := digitChar_facts (show n % 10 < 10 from Nat.mod_lt n (by omega))
      simp only [digitsVal, List.foldl_append, List.foldl_cons, List.foldl_nil] at *
      rw [hrec, h3]
      omega

theorem digitsVal_natToChars {n : Nat} : digitsVal (natToChars n) = n :=
  digitsVal_natToCharsGo (n + 1) n (by omega)

theorem takeWhile_append_of_all {p : Char → Bool} {A z : List Char}
    (h : ∀ c ∈ A, p c = true) :
    (A ++ z).takeWhile p = A ++ z.takeWhile p ∧ (A ++ z).dropWhile p = z.dropWhile p := by
  induction A with
  | nil => simp
  | cons c t ih =>
    have hc : p c = true := h c (List.mem_cons_self c t)
    have ht := ih (fun x hx => h x (List.mem_cons_of_mem c hx))
    simp [List.takeWhile_cons_of_pos hc, List.dropWhile_cons_of_pos hc, ht.1, ht.2]

theorem takeWhile_append_stop {p : Char → Bool} {A r : List Char} {x : Char}
    (hA : ∀ c ∈ A, p c = true) (hx : p x = false) :
    (A ++ x :: r).takeWhile p = A ∧ (A ++ x :: r).dropWhile p = x :: r := by
  obtain ⟨h1, h2⟩ := takeWhile_append_of_all (z := x :: r) hA
  rw [h1, h2, List.takeWhile_cons_of_neg (by simp [hx]),
      List.dropWhile_cons_of_neg (by simp [hx])]
  simp

theorem takeWhile_eq_self_of_all {p : Char → Bool} {A : List Char}
    (h : ∀ c ∈ A, p c = true) : A.takeWhile p = A := by
  have := (takeWhile_append_of_all (z := []) h).1
  simpa using this

theorem map_eq_self_of {f : Char → Char} {l : List Char} (h : ∀ c ∈ l, f c = c) :
    l.map f = l := by
  induction l with
  | nil => rfl
  | cons c t ih => simp_all

theorem preprocess_mk {l : List Char} (h : ∀ c ∈ l, c ≠ ' ' ∧ Char.toLower c = c) :
    preprocess (String.mk l) = l := by
  have hfil : l.filter (fun c => c != ' ') = l :=
    List.filter_eq_self.mpr (fun c hc => by simp [bne, (h c hc).1])
  simp only [preprocess, String.toList]
  show ((String.mk l).data.filter (fun c => c != ' ')).map Char.toLower = l
  simp only [String.mk]
  rw [hfil]
  exact map_eq_self_of (fun c hc => (h c hc).2)

theorem dropWhile_eq_nil_of_all {p : Char → Bool} {A : List Char}
    (h : ∀ c ∈ A, p c = true) : A.dropWhile p = [] := by
  have := (takeWhile_append_of_all (z := []) h).2
  simpa using this

/-- Evaluation of the regex step on an exact match with no modifier group:
`cs = A ++ "d" ++ B` with `A` a digit run and `B` a nonempty digit run. -/
theorem matchDice_nomod {A B : List Char}
    (hA : ∀ c ∈ A, c.isDigit = true) (hB : ∀ c ∈ B, c.isDigit = true)
    (hBne : B ≠ []) :
    matchDice (A ++ 'd' :: B) =
      some (if A = [] then none else some (digitsVal A), digitsVal B, none) := by
  obtain ⟨htw, hdw⟩ := takeWhile_append_stop (r := B) hA
    (show Char.isDigit 'd' = false by decide)
  rw [matchDice]
  simp only [htw, hdw, List.headD_cons, List.tail_cons]
  rw [if_pos trivial, takeWhile_eq_self_of_all hB, if_neg hBne,
    dropWhile_eq_nil_of_all hB, parseModPart]
  simp only [List.headD_nil]
  rw [if_neg (show ¬(' ' = '+') by decide), if_neg (show ¬(' ' = '-') by decide)]

/-- Evaluation of the regex step on an exact match with a modifier group:
`cs = A ++ "d" ++ B ++ sgn ++ M` with `A` a digit run, `B`, `M` nonempty digit
runs and `sgn` one of `+`/`-`. -/
theorem matchDice_mod {A B M : List Char} {sgn : Char}
    (hA : ∀ c ∈ A, c.isDigit = true) (hB : ∀ c ∈ B, c.isDigit = true)
    (hBne : B ≠ []) (hM : ∀ c ∈ M, c.isDigit = true) (hMne : M ≠ [])
    (hsgn : sgn = '+' ∨ sgn = '-') :
    matchDice ((A ++ 'd' :: B) ++ sgn :: M) =
      some (if A = [] then none else some (digitsVal A), digitsVal B,
        some (if sgn = '+' then (Int.ofNat (digitsVal M))
              else -(Int.ofNat (digitsVal M)))) := by
  have hsd : Char.isDigit sgn = false := by
    rcases hsgn with h | h <;> subst h <;> decide
  rw [List.append_assoc, List.cons_append]
  obtain ⟨htw, hdw⟩ := takeWhile_append_stop (r := B ++ sgn :: M) hA
    (show Char.isDigit 'd' = false by decide)
  obtain ⟨htw2, hdw2⟩ := takeWhile_append_stop (r := M) (A := B) hB hsd
  rw [matchDice]
  simp only [htw, hdw, List.headD_cons, List.tail_cons]
  rw [if_pos trivial, htw2, if_neg hBne, hdw2, parseModPart]
  simp only [List.headD_cons, List.tail_cons]
  rw [takeWhile_eq_self_of_all hM]
  rcases hsgn with h | h <;> subst h <;> simp +decide [hMne]

theorem natToChars_clean {n : Nat} :
    ∀ c ∈ natToChars n, c ≠ ' ' ∧ Char.toLower c = c := by
  intro c hc
  obtain ⟨-, h2, h3⟩ := natToChars_mem c hc
  exact ⟨h3, h2⟩

/-- Round trip: the re-rendered critical notation
`f"{count * 2}d{sides}+{modifier}"` parses back to exactly
`(count * 2, sides, modifier)` when the modifier is nonnegative. -/
theorem parse_crit_round_trip {count sides : Nat} {m : Int} (hm : 0 ≤ m) :
    parse_dice_string (String.mk
      (natToChars (count * 2) ++ 'd' :: natToChars sides ++ '+' :: intToChars m)) =
      some (count * 2, sides, m) := by
  have hint : intToChars m = natToChars m.toNat := by
    rw [intToChars, if_neg (by omega)]
  rw [hint]
  have hclean : ∀ c ∈ (natToChars (count * 2) ++ 'd' :: natToChars sides)
      ++ '+' :: natToChars m.toNat, c ≠ ' ' ∧ Char.toLower c = c := by
    intro c hc
    rcases List.mem_append.mp hc with h | h
    · rcases List.mem_append.mp h with h | h
      · exact natToChars_clean c h
      · rcases List.mem_cons.mp h with h | h
        · subst h; exact ⟨by decide, by decide⟩
        · exact natToChars_clean c h
    · rcases List.mem_cons.mp h with h | h
      · subst h; exact ⟨by decide, by decide⟩
      · exact natToChars_clean c h
  rw [parse_dice_string, preprocess_mk hclean]
  rw [matchDice_mod (fun c hc => (natToChars_mem c hc).1)
    (fun c hc => (natToChars_mem c hc).1) natToChars_ne_nil
    (fun c hc => (natToChars_mem c hc).1) natToChars_ne_nil (Or.inl rfl)]
  rw [if_pos rfl, if_neg natToChars_ne_nil]
  simp only [digitsVal_natToChars, Option.map_some, Option.getD_some]
  have h2 : Int.ofNat m.toNat = m := by
    simpa using Int.toNat_of_nonneg hm
  rw [h2]
  rfl

/-- Standard-path soundness of `roll_dice` (no advantage/disadvantage flags):
the outcome carries the parsed modifier, one die result per requested die,
each in `[1, sides]`, and total `=` sum `+` modifier. -/
theorem roll_dice_std_sound {s : String} {rng : Nat → Nat}
    {count sides : Nat} {m : Int} {r : DiceRoll}
    (hp : parse_dice_string s = some (count, sides, m))
    (hr : roll_dice s false false rng = some r) :
    r.modifier = m ∧ r.individual_rolls.length = count ∧
    (∀ x ∈ r.individual_rolls, 1 ≤ x ∧ x ≤ sides) ∧
    r.total = (r.individual_rolls.sum : Int) + m := by
  simp only [roll_dice, hp, bind, Option.bind, Bool.or_self, Bool.false_and,
    Bool.false_eq_true, if_false] at hr
  cases hl : rollList sides rng 0 count with
  | none => rw [hl] at hr; simp at hr
  | some l =>
    rw [hl] at hr
    simp only [Option.some.injEq] at hr
    subst hr
    obtain ⟨hlen, hmem⟩ := rollList_sound hl
    exact ⟨rfl, hlen, hmem, by simp⟩

/-- C4 counterexample.  The claim asserts that for a *possibly negative*
modifier `K`, critical damage resolves `2N` dice with the same modifier `K`.
At `"1d6-2"` (so `K = -2`) the re-rendered critical notation is `"2d6+-2"`;
the regex's optional modifier group fails on `"+-2"` and is dropped, so the
outcome carries modifier `0`, not `-2`: with both dice forced to 1 the total
is `2`, whereas the claim demands `1 + 1 + (-2) = 0`. -/
theorem C4_counterexample_negative_modifier :
    parse_dice_string "1d6-2" = some (1, 6, -2) ∧
    roll_damage "1d6-2" true (fun _ => 0) =
      some { dice_str := "2d6+-2", individual_rolls := [1, 1], total := 2,
             modifier := 0, critical := true } ∧
    ¬ (roll_damage "1d6-2" true (fun _ => 0) =
        some { dice_str := "2d6+-2", individual_rolls := [1, 1], total := 0,
               modifier := -2, critical := true }) := by
  refine ⟨by decide, by decide, by decide⟩

/-- C4 (amended).  For every valid damage notation with count `N`, sides `M`,
and **nonnegative** modifier `K`, resolving it as critical damage doubles the
die count — it resolves `2N` dice of `M` sides with the same modifier `K` —
and does not double the modifier.  (For negative `K` the re-rendered notation
`f"{2N}d{M}+{K}"` contains `+-`, the modifier group silently fails to match,
and the modifier is dropped to 0 — see the counterexample.) -/
theorem C4_critical_damage_doubles_count (damage_dice : String) (rng : Nat → Nat)
    (count sides : Nat) (m : Int) (r : DiceRoll)
    (hp : parse_dice_string damage_dice = some (count, sides, m)) (hm : 0 ≤ m)
    (hr : roll_damage damage_dice true rng = some r) :
    r.modifier = m ∧ r.individual_rolls.length = count * 2 ∧
    (∀ x ∈ r.individual_rolls, 1 ≤ x ∧ x ≤ sides) ∧
    r.total = (r.individual_rolls.sum : Int) + m ∧ r.critical = true := by
  rw [roll_damage, if_pos rfl] at hr
  simp only [hp] at hr
  cases hroll : roll_dice (String.mk (natToChars (count * 2) ++ 'd' :: natToChars sides
      ++ '+' :: intToChars m)) false false rng with
  | none => rw [hroll] at hr; simp at hr
  | some r' =>
    rw [hroll] at hr
    simp only [Option.some.injEq] at hr
    subst hr
    obtain ⟨h1, h2, h3, h4⟩ := roll_dice_std_sound (parse_crit_round_trip hm) hroll
    exact ⟨h1, h2, h3, h4, rfl⟩

/-- Witness for C4 (amended) at `"2d6+3"` under critical with the draw stream
`fun i => i`: resolves 4 dice of 6 sides with modifier 3. -/
theorem C4_critical_damage_doubles_count_witness :
    parse_dice_string "2d6+3" = some (2, 6, 3) ∧ (0 : Int) ≤ 3 ∧
    roll_damage "2d6+3" true (fun i => i) =
      some { dice_str := "4d6+3", individual_rolls := [1, 2, 3, 4], total := 13,
             modifier := 3, critical := true } ∧
    (fun r : DiceRoll => r.modifier = 3 ∧ r.individual_rolls.length = 2 * 2 ∧
        (∀ x ∈ r.individual_rolls, 1 ≤ x ∧ x ≤ 6) ∧
        r.total = (r.individual_rolls.sum : Int) + 3 ∧ r.critical = true)
      { dice_str := "4d6+3", individual_rolls := [1, 2, 3, 4], total := 13,
        modifier := 3, critical := true } := by
  refine ⟨by decide, by decide, by decide, ?_⟩
  exact C4_critical_damage_doubles_count "2d6+3" (fun i => i) 2 6 3
    { dice_str := "4d6+3", individual_rolls := [1, 2, 3, 4], total := 13,
      modifier := 3, critical := true }
    (by decide) (by decide) (by decide)

theorem take_append_exact {α : Type} {X Y : List α} {k : Nat} :
    (X ++ Y).take (X.length + k) = X ++ Y.take k := by
  induction X with
  | nil => simp
  | cons x t ih =>
    rw [List.cons_append, List.length_cons,
      show t.length + 1 + k = (t.length + k) + 1 by omega,
      List.take_succ_cons, ih]
    rfl

/-- Parser soundness against the grammar: if the regex step accepts `cs`, some
prefix of `cs` matches `\d*d\d+([+-]\d+)?` in full. -/
theorem matchDice_some_pfx {cs : List Char} {x : Option Nat × Nat × Option Int}
    (h : matchDice cs = some x) : specPfxMatch cs = true := by
  rw [matchDice] at h
  by_cases hd : (cs.dropWhile Char.isDigit).headD ' ' = 'd'
  swap
  · rw [if_neg hd] at h
    exact absurd h (by simp)
  rw [if_pos hd] at h
  by_cases hb : (cs.dropWhile Char.isDigit).tail.takeWhile Char.isDigit = []
  · rw [if_pos hb] at h
    exact absurd h (by simp)
  clear h
  cases hdw : cs.dropWhile Char.isDigit with
  | nil => rw [hdw] at hd; exact absurd hd (by decide)
  | cons d0 r2 =>
    rw [hdw] at hd hb
    simp only [List.headD_cons] at hd
    subst hd
    simp only [List.tail_cons] at hb
    have hAdig : ∀ c ∈ cs.takeWhile Char.isDigit, Char.isDigit c = true :=
      fun c hc => List.mem_takeWhile_imp hc
    have hBdig : ∀ c ∈ r2.takeWhile Char.isDigit, Char.isDigit c = true :=
      fun c hc => List.mem_takeWhile_imp hc
    set A := cs.takeWhile Char.isDigit with hA
    set B := r2.takeWhile Char.isDigit with hB
    set R := r2.dropWhile Char.isDigit with hR
    have hcs : cs = A ++ 'd' :: (B ++ R) := by
      conv_lhs => rw [← List.takeWhile_append_dropWhile (p := Char.isDigit) (l := cs)]
      rw [hdw, ← hA, List.takeWhile_append_dropWhile]
    rw [specPfxMatch]
    apply List.any_eq_true.mpr
    refine ⟨A.length + 1 + B.length, List.mem_range.mpr ?_, ?_⟩
    · rw [hcs]
      simp only [List.length_append, List.length_cons]
      omega
    · have htake : cs.take (A.length + 1 + B.length) = A ++ 'd' :: B := by
        rw [hcs, show A.length + 1 + B.length = A.length + (1 + B.length) by omega,
          take_append_exact,
          show 1 + B.length = B.length + 1 by omega,
          List.take_succ_cons, List.take_left]
      rw [htake, specFullMatch]
      apply List.any_eq_true.mpr
      refine ⟨A.length, List.mem_range.mpr ?_, ?_⟩
      · simp only [List.length_append, List.length_cons]
        omega
      · rw [List.take_left, List.drop_left]
        simp only [Bool.and_eq_true, beq_self_eq_true, true_and]
        refine ⟨List.all_eq_true.mpr hAdig, ?_⟩
        rw [sidesAndMod]
        apply List.any_eq_true.mpr
        refine ⟨B.length, List.mem_range.mpr (by omega), ?_⟩
        rw [List.take_length, List.drop_length]
        have hBem : B.isEmpty = false := by
          cases hBc : B with
          | nil => exact absurd hBc hb
          | cons _ _ => rfl
        simp only [hBem, List.isEmpty_nil, Bool.true_or, Bool.and_true,
          Bool.not_false, Bool.true_and]
        exact List.all_eq_true.mpr hBdig

/-- Parser completeness against the grammar: if some prefix of `cs` matches
`\d*d\d+([+-]\d+)?` in full, the regex step accepts `cs`. -/
theorem pfx_matchDice_some {cs : List Char} (h : specPfxMatch cs = true) :
    ∃ x, matchDice cs = some x := by
  rw [specPfxMatch] at h
  obtain ⟨j, -, hj⟩ := List.any_eq_true.mp h
  rw [specFullMatch] at hj
  obtain ⟨i, -, hi⟩ := List.any_eq_true.mp hj
  rw [Bool.and_eq_true] at hi
  obtain ⟨hallA, hrest⟩ := hi
  cases hdrop : (cs.take j).drop i with
  | nil => rw [hdrop] at hrest; simp at hrest
  | cons c rest =>
    rw [hdrop] at hrest
    simp only [Bool.and_eq_true, beq_iff_eq] at hrest
    obtain ⟨hc, hsm⟩ := hrest
    subst hc
    rw [sidesAndMod] at hsm
    obtain ⟨k, -, hk⟩ := List.any_eq_true.mp hsm
    simp only [Bool.and_eq_true, Bool.not_eq_true'] at hk
    obtain ⟨⟨hkne, hkdig⟩, -⟩ := hk
    have htkne : rest.take k ≠ [] := by
      intro hnil
      rw [hnil] at hkne
      exact absurd hkne (by decide)
    have hAdig : ∀ x ∈ (cs.take j).take i, Char.isDigit x = true :=
      List.all_eq_true.mp hallA
    have hBdig : ∀ x ∈ rest.take k, Char.isDigit x = true :=
      List.all_eq_true.mp hkdig
    have hcs : cs = (cs.take j).take i
        ++ 'd' :: (rest.take k ++ (rest.drop k ++ cs.drop j)) := by
      conv_lhs => rw [← List.take_append_drop j cs]
      conv_lhs => rw [← List.take_append_drop i (cs.take j)]
      rw [hdrop]
      rw [← List.append_assoc (rest.take k), List.take_append_drop]
      simp [List.append_assoc]
    obtain ⟨htw, hdw⟩ := takeWhile_append_stop
      (r := rest.take k ++ (rest.drop k ++ cs.drop j)) hAdig
      (show Char.isDigit 'd' = false by decide)
    rw [matchDice]
    rw [hcs]
    simp only [htw, hdw, List.headD_cons, List.tail_cons]
    rw [if_pos trivial]
    obtain ⟨htw2, -⟩ := takeWhile_append_of_all
      (z := rest.drop k ++ cs.drop j) hBdig
    rw [htw2]
    have : ¬(rest.take k ++ (rest.drop k ++ cs.drop j).takeWhile Char.isDigit = []) := by
      intro hcontra
      exact htkne (List.append_eq_nil.mp hcontra).1
    rw [if_neg this]
    exact ⟨_, rfl⟩

/-- C9 counterexample.  The claim asserts the parser fails exactly when the
stripped, lowercased string does not match `\d*d\d+([+-]\d+)?`.  `"1d20abc"`
does not match the pattern (no decomposition of the whole string fits), yet
the parser accepts it — Python's `re.match` only anchors at the start, so the
trailing `"abc"` is ignored and `(1, 20, 0)` is returned instead of
`InvalidNotation`. -/
theorem C9_counterexample_trailing_garbage :
    specFullMatch (preprocess "1d20abc") = false ∧
    parse_dice_string "1d20abc" = some (1, 20, 0) ∧
    parse_dice_string "1d20abc" ≠ none := by
  refine ⟨by decide, by decide, by decide⟩

/-- C9 (amended).  The parser fails with `InvalidNotation` exactly when **no
prefix** of the whitespace-stripped, lowercased input matches
`\d*d\d+([+-]\d+)?` (`re.match` anchors at the start but does not require
consuming the whole string, so trailing characters are ignored); when the
whole preprocessed string matches the grammar exactly, parsing yields count
defaulting to 1 if its group is omitted, the given sides, and modifier
defaulting to 0 if its group is omitted. -/
theorem C9_parse_iff_prefix_match (s : String) :
    (parse_dice_string s = none ↔ specPfxMatch (preprocess s) = false) ∧
    (∀ A B : List Char, (∀ c ∈ A, c.isDigit = true) → (∀ c ∈ B, c.isDigit = true) →
      B ≠ [] →
      (preprocess s = A ++ 'd' :: B →
        parse_dice_string s =
          some ((if A = [] then 1 else digitsVal A), digitsVal B, 0)) ∧
      (∀ (M : List Char) (sgn : Char), (sgn = '+' ∨ sgn = '-') →
        (∀ c ∈ M, c.isDigit = true) → M ≠ [] →
        preprocess s = (A ++ 'd' :: B) ++ sgn :: M →
        parse_dice_string s =
          some ((if A = [] then 1 else digitsVal A), digitsVal B,
            if sgn = '+' then (digitsVal M : Int) else -(digitsVal M : Int)))) := by
  constructor
  · constructor
    · intro hn
      by_contra hpfx
      rw [Bool.not_eq_false] at hpfx
      obtain ⟨x, hx⟩ := pfx_matchDice_some hpfx
      rw [parse_dice_string, hx] at hn
      exact absurd hn (by simp)
    · intro hf
      rw [parse_dice_string]
      cases hmd : matchDice (preprocess s) with
      | none => rfl
      | some x =>
        rw [matchDice_some_pfx hmd] at hf
        exact absurd hf (by decide)
  · intro A B hA hB hBne
    constructor
    · intro hpre
      rw [parse_dice_string, hpre, matchDice_nomod hA hB hBne]
      by_cases hAnil : A = []
      · rw [if_pos hAnil, if_pos hAnil]
        rfl
      · rw [if_neg hAnil, if_neg hAnil]
        rfl
    · intro M sgn hsgn hM hMne hpre
      rw [parse_dice_string, hpre, matchDice_mod hA hB hBne hM hMne hsgn]
      by_cases hAnil : A = []
      · rw [if_pos hAnil, if_pos hAnil]
        rfl
      · rw [if_neg hAnil, if_neg hAnil]
        rfl

/-- Witness for C9 (amended) at `"2d6+3"`, whose preprocessed form decomposes
exactly as `"2" ++ "d" ++ "6" ++ "+" ++ "3"`. -/
theorem C9_parse_iff_prefix_match_witness :
    (∀ c ∈ ['2'], Char.isDigit c = true) ∧ (∀ c ∈ ['6'], Char.isDigit c = true) ∧
    (['6'] : List Char) ≠ [] ∧ ('+' = '+' ∨ '+' = '-') ∧
    (∀ c ∈ ['3'], Char.isDigit c = true) ∧ (['3'] : List Char) ≠ [] ∧
    preprocess "2d6+3" = (['2'] ++ 'd' :: ['6']) ++ '+' :: ['3'] ∧
    parse_dice_string "2d6+3" =
      some ((if (['2'] : List Char) = [] then 1 else digitsVal ['2']),
        digitsVal ['6'],
        if '+' = '+' then (digitsVal ['3'] : Int) else -(digitsVal ['3'] : Int)) := by
  refine ⟨by decide, by decide, by decide, Or.inl rfl, by decide, by decide, by decide, ?_⟩
  exact ((C9_parse_iff_prefix_match "2d6+3").2 ['2'] ['6'] (by decide) (by decide)
    (by decide)).2 ['3'] '+' (Or.inl rfl) (by decide) (by decide) (by decide)

/-- Updating a stored session and reading it back. -/
theorem get_setSession_self {mgr : Manager} {sid : String}
    {s s0 : MultiplayerSession} (h : get_session mgr sid = some s0) :
    get_session (setSession mgr sid s) sid = some s := by
  induction mgr with
  | nil => rw [get_session] at h; exact absurd h (by simp)
  | cons p t ih =>
    obtain ⟨k, s1⟩ := p
    rw [get_session] at h
    rw [setSession]
    by_cases hk : (k == sid) = true
    · rw [if_pos hk, get_session, if_pos hk]
    · rw [if_neg hk] at h
      rw [if_neg hk, get_session, if_neg hk]
      exact ih h

/-- C3, evaluated on the code (code bug).  `_initialize_turn_order` writes
`random.shuffle(self.turn_order[1:])`, but the slice `[1:]` is a fresh copy:
the shuffle permutes that copy and discards it.  Hence the turn order of every
created session is the fixed list `human :: roster`, for EVERY value of the
injected shuffle randomness — the companion segment is never permuted, contrary
to the code's own `# Shuffle AI players, keep human first` comment.  (The parts
of the claim that do hold: the human is at index 0 and the length is
companions + 1.) -/
theorem C3_turn_order_ignores_shuffle_randomness (mgr : Manager) (human : String)
    (voice : Bool) (uuid : String) (rngShuffle : Nat → Nat) (rScene : Nat) :
    (create_session mgr human voice uuid rngShuffle rScene).2.turn_order =
      human :: get_ai_players.map AIPlayer.name ∧
    (create_session mgr human voice uuid rngShuffle rScene).2.turn_order =
      [human, "Thorgar Ironbeard", "Elara Moonwhisper", "Zara Swiftblade",
        "Brother Marcus"] ∧
    (create_session mgr human voice uuid rngShuffle rScene).2.turn_order.length =
      get_ai_players.length + 1 := ⟨rfl, rfl, rfl⟩

/-- C7 counterexample.  A stored session in the terminal `completed` state
still accepts a turn-processing request: the call succeeds, appends 1 human +
4 companion turn records, advances the turn index and increments the counter —
`process_player_action` never reads `session_state`. -/
theorem C7_counterexample_completed_session_processes :
    (process_player_action
        [("s1", { session_id := "s1", human_player_name := "Aria",
                  session_state := .completed, ai_players := get_ai_players,
                  turn_order := "Aria" :: get_ai_players.map AIPlayer.name })]
        "s1" "Aria" "I attack the goblin" "" (fun _ => "t") (fun _ => 0)
        (fun _ => 0)).2 ≠ none ∧
    (get_session (process_player_action
        [("s1", { session_id := "s1", human_player_name := "Aria",
                  session_state := .completed, ai_players := get_ai_players,
                  turn_order := "Aria" :: get_ai_players.map AIPlayer.name })]
        "s1" "Aria" "I attack the goblin" "" (fun _ => "t") (fun _ => 0)
        (fun _ => 0)).1 "s1").map
      (fun s => (s.session_state, s.game_turns.length, s.current_turn_index,
        s.total_turns)) = some (.completed, 5, 1, 1) := by
  refine ⟨by decide, by decide⟩

/-- C7 (amended).  Turn processing is gated only on session existence, not on
session state: a request for an unknown session id is rejected and leaves the
store untouched, while every stored session — in any state, including the
terminal `completed` — accepts the action and is mutated as usual. -/
theorem C7_only_existence_gates_processing (mgr : Manager)
    (sid pname act dlg : String) (uuid : Nat → String) (rng rngDM : Nat → Nat) :
    (get_session mgr sid = none →
      process_player_action mgr sid pname act dlg uuid rng rngDM = (mgr, none)) ∧
    (∀ sess : MultiplayerSession, get_session mgr sid = some sess →
      (process_player_action mgr sid pname act dlg uuid rng rngDM).2 ≠ none) := by
  constructor
  · intro h
    rw [process_player_action, h]
  · intro sess h
    rw [process_player_action, h]
    simp

/-- Witness for C7 (amended): the empty store rejects, and a store holding one
`completed` session accepts. -/
theorem C7_only_existence_gates_processing_witness :
    (get_session [] "s1" = none ∧
      process_player_action [] "s1" "Aria" "look" "" (fun _ => "t") (fun _ => 0)
        (fun _ => 0) = ([], none)) ∧
    (get_session [("s1", { session_id := "s1", human_player_name := "Aria",
                           session_state := .completed })] "s1" =
        some { session_id := "s1", human_player_name := "Aria",
               session_state := .completed } ∧
      (process_player_action
          [("s1", { session_id := "s1", human_player_name := "Aria",
                    session_state := .completed })]
          "s1" "Aria" "look" "" (fun _ => "t") (fun _ => 0) (fun _ => 0)).2 ≠
        none) := by
  constructor
  · exact ⟨by decide, (C7_only_existence_gates_processing [] "s1" "Aria" "look" ""
      (fun _ => "t") (fun _ => 0) (fun _ => 0)).1 (by decide)⟩
  · exact ⟨by decide, (C7_only_existence_gates_processing
      [("s1", { session_id := "s1", human_player_name := "Aria",
                session_state := .completed })] "s1" "Aria" "look" ""
      (fun _ => "t") (fun _ => 0) (fun _ => 0)).2
      { session_id := "s1", human_player_name := "Aria",
        session_state := .completed } (by decide)⟩

/-- C8 counterexample.  The voice toggle is `session.voice_mode = not
session.voice_mode`: applying it once to a session whose flag is `true` yields
`false`, applying it twice yields `true` — the two results differ, so the
operation is not idempotent. -/
theorem C8_counterexample_toggle_not_idempotent :
    (get_session (toggle_voice_mode
        [("s1", { session_id := "s1", human_player_name := "Aria" })] "s1").1
      "s1").map MultiplayerSession.voice_mode = some false ∧
    (get_session (toggle_voice_mode (toggle_voice_mode
        [("s1", { session_id := "s1", human_player_name := "Aria" })] "s1").1
        "s1").1 "s1").map MultiplayerSession.voice_mode = some true ∧
    ¬ ((get_session (toggle_voice_mode
          [("s1", { session_id := "s1", human_player_name := "Aria" })] "s1").1
        "s1").map MultiplayerSession.voice_mode =
      (get_session (toggle_voice_mode (toggle_voice_mode
          [("s1", { session_id := "s1", human_player_name := "Aria" })] "s1").1
          "s1").1 "s1").map MultiplayerSession.voice_mode) := by
  refine ⟨by decide, by decide, by decide⟩

/-- C8 (amended).  The voice-mode toggle is an involution, not idempotent: one
application flips the stored session's flag (and reports the new value), and a
second application restores the original session exactly. -/
theorem C8_toggle_is_involution (mgr : Manager) (sid : String)
    (s : MultiplayerSession) (h : get_session mgr sid = some s) :
    (toggle_voice_mode mgr sid).2 = some (!s.voice_mode) ∧
    get_session (toggle_voice_mode mgr sid).1 sid =
      some { s with voice_mode := !s.voice_mode } ∧
    get_session (toggle_voice_mode (toggle_voice_mode mgr sid).1 sid).1 sid =
      some s ∧
    (toggle_voice_mode (toggle_voice_mode mgr sid).1 sid).2 =
      some s.voice_mode := by
  have h1 : toggle_voice_mode mgr sid =
      (setSession mgr sid { s with voice_mode := !s.voice_mode },
        some (!s.voice_mode)) := by
    rw [toggle_voice_mode, h]
  have h2 : get_session (toggle_voice_mode mgr sid).1 sid =
      some { s with voice_mode := !s.voice_mode } := by
    rw [h1]
    exact get_setSession_self h
  refine ⟨by rw [h1], h2, ?_, ?_⟩
  · have h3 : toggle_voice_mode (toggle_voice_mode mgr sid).1 sid =
        (setSession (toggle_voice_mode mgr sid).1 sid
          { s with voice_mode := !(!s.voice_mode) }, some (!(!s.voice_mode))) := by
      rw [toggle_voice_mode, h2]
    rw [h3]
    simp only [Bool.not_not]
    exact get_setSession_self h2
  · rw [toggle_voice_mode, h2]
    simp [Bool.not_not]

/-- Witness for C8 (amended) on a concrete one-session store. -/
theorem C8_toggle_is_involution_witness :
    get_session [("s1", { session_id := "s1", human_player_name := "Aria" })]
        "s1" =
      some { session_id := "s1", human_player_name := "Aria" } ∧
    get_session (toggle_voice_mode (toggle_voice_mode
        [("s1", { session_id := "s1", human_player_name := "Aria" })] "s1").1
        "s1").1 "s1" =
      some { session_id := "s1", human_player_name := "Aria" } := by
  refine ⟨by decide, ?_⟩
  exact (C8_toggle_is_involution
    [("s1", { session_id := "s1", human_player_name := "Aria" })] "s1"
    { session_id := "s1", human_player_name := "Aria" } (by decide)).2.2.1

theorem companion_step_shape (situation : String) (uuid : Nat → String)
    (rng : Nat → Nat) (sess : MultiplayerSession) (acc : List AIResponse)
    (i : Nat) (p : AIPlayer) :
    ∃ T : GameTurn, T.player_type = .ai ∧
      companion_step situation uuid rng (sess, acc) (i, p) =
        ({ sess with game_turns := sess.game_turns ++ [T] },
          acc ++ (generate_ai_player_response p.name situation (rng (2 * i))
            (rng (2 * i + 1))).toList) :=
  ⟨_, rfl, rfl⟩

/-- The companion loop appends exactly one AI turn record per companion and
touches nothing else of the session. -/
theorem companion_foldl_spec (situation : String) (uuid : Nat → String)
    (rng : Nat → Nat) :
    ∀ (l : List (Nat × AIPlayer)) (sess : MultiplayerSession) (acc : List AIResponse),
      ∃ ts : List GameTurn,
        (l.foldl (companion_step situation uuid rng) (sess, acc)).1 =
          { sess with game_turns := sess.game_turns ++ ts } ∧
        ts.length = l.length ∧ ∀ t ∈ ts, t.player_type = .ai := by
  intro l
  induction l with
  | nil =>
    intro sess acc
    exact ⟨[], by simp, rfl, by simp⟩
  | cons hd tl ih =>
    intro sess acc
    obtain ⟨i, p⟩ := hd
    rw [List.foldl_cons]
    obtain ⟨T, hT, hstep⟩ := companion_step_shape situation uuid rng sess acc i p
    rw [hstep]
    obtain ⟨ts', h1, h2, h3⟩ := ih { sess with game_turns := sess.game_turns ++ [T] }
      (acc ++ (generate_ai_player_response p.name situation (rng (2 * i))
        (rng (2 * i + 1))).toList)
    refine ⟨T :: ts', ?_, by simp [h2], ?_⟩
    · rw [h1]
      simp [List.append_assoc]
    · intro t ht
      rcases List.mem_cons.mp ht with h | h
      · subst h; exact hT
      · exact h3 t h

/-- One `process_player_action` call on a stored session: the store keeps the
session under the same id, with exactly one human turn record plus one AI turn
record per companion appended, the turn index advanced by one modulo the
turn-order length, the turn counter incremented by one, and the turn order,
roster, state and voice flag untouched. -/
theorem process_step_spec {mgr : Manager} {sid : String}
    (pname act dlg : String) (uuid : Nat → String) (rng rngDM : Nat → Nat)
    {sess : MultiplayerSession} (h : get_session mgr sid = some sess) :
    ∃ (sess' : MultiplayerSession) (ts : List GameTurn) (res : ProcessResult),
      process_player_action mgr sid pname act dlg uuid rng rngDM =
        (setSession mgr sid sess', some res) ∧
      sess'.game_turns = sess.game_turns ++
        ({ turn_id := uuid 0, player_name := pname, player_type := .human,
           action := act, dialogue := dlg } :: ts) ∧
      ts.length = sess.ai_players.length ∧
      (∀ t ∈ ts, t.player_type = .ai) ∧
      sess'.current_turn_index =
        (sess.current_turn_index + 1) % sess.turn_order.length ∧
      sess'.total_turns = sess.total_turns + 1 ∧
      sess'.turn_order = sess.turn_order ∧
      sess'.ai_players = sess.ai_players ∧
      sess'.session_state = sess.session_state ∧
      sess'.voice_mode = sess.voice_mode := by
  set SIT := (if dlg ≠ "" then act ++ ". " ++ dlg else act) with hSIT
  set HT : GameTurn := { turn_id := uuid 0, player_name := pname,
                         player_type := .human, action := act,
                         dialogue := dlg } with hHT
  set S1 : MultiplayerSession :=
    { sess with game_turns := sess.game_turns ++ [HT] } with hS1
  set F := S1.ai_players.enum.foldl (companion_step SIT uuid rng) (S1, []) with hF
  have key : process_player_action mgr sid pname act dlg uuid rng rngDM =
      (setSession mgr sid
        { F.1 with
          current_turn_index := (F.1.current_turn_index + 1) % F.1.turn_order.length,
          total_turns := F.1.total_turns + 1 },
        some { session_id := sid, ai_responses := F.2,
               dm_response := _generate_dm_response act (rngDM 0) (rngDM 1) (rngDM 2),
               current_turn := F.1.turn_order.getD
                 ((F.1.current_turn_index + 1) % F.1.turn_order.length) "",
               turn_number := F.1.total_turns + 1,
               voice_mode := F.1.voice_mode }) := by
    rw [process_player_action, h]
  obtain ⟨ts, h1, h2, h3⟩ := companion_foldl_spec SIT uuid rng S1.ai_players.enum S1 []
  rw [← hF] at h1
  refine ⟨_, ts, _, key, ?_, ?_, h3, ?_, ?_, ?_, ?_, ?_, ?_⟩
  · rw [h1, hS1]
    simp [List.append_assoc]
  · rw [h2, hS1]
    simp [List.enum_length]
  all_goals rw [h1, hS1]

theorem get_session_append_self {mgr : Manager} {k : String}
    {v : MultiplayerSession} (h : get_session mgr k = none) :
    get_session (mgr ++ [(k, v)]) k = some v := by
  induction mgr with
  | nil => simp [get_session]
  | cons p t ih =>
    obtain ⟨k1, s1⟩ := p
    rw [get_session] at h
    rw [List.cons_append, get_session]
    by_cases hk : (k1 == k) = true
    · rw [if_pos hk] at h
      exact absurd h (by simp)
    · rw [if_neg hk] at h
      rw [if_neg hk]
      exact ih h

theorem get_dictSet_self {mgr : Manager} {k : String} {v : MultiplayerSession} :
    get_session (dictSet mgr k v) k = some v := by
  rw [dictSet]
  by_cases hs : (get_session mgr k).isSome = true
  · rw [if_pos hs]
    obtain ⟨s0, h0⟩ := Option.isSome_iff_exists.mp hs
    exact get_setSession_self h0
  · rw [if_neg hs]
    exact get_session_append_self (Option.not_isSome_iff_eq_none.mp hs)

/-- The session created by `create_session` is stored under its id. -/
theorem get_create_session (mgr : Manager) (human : String) (voice : Bool)
    (u : String) (rs : Nat → Nat) (rsc : Nat) :
    get_session (create_session mgr human voice u rs rsc).1 u =
      some (create_session mgr human voice u rs rsc).2 := by
  rw [create_session]
  exact get_setSession_self get_dictSet_self

/-- `N` successive processed actions: the turn order and roster never change,
the turn index accumulates modulo the turn-order length, and the counter
accumulates by one per call. -/
theorem iterate_invariant (sid pname act dlg : String) (uuid : Nat → Nat → String)
    (rng rngDM : Nat → Nat → Nat) :
    ∀ (N : Nat) (mgr : Manager) (sess : MultiplayerSession),
      get_session mgr sid = some sess →
      sess.current_turn_index < sess.turn_order.length →
      ∃ sess' : MultiplayerSession,
        get_session (iterateProcess sid pname act dlg uuid rng rngDM N mgr) sid =
          some sess' ∧
        sess'.turn_order = sess.turn_order ∧
        sess'.ai_players = sess.ai_players ∧
        sess'.current_turn_index =
          (sess.current_turn_index + N) % sess.turn_order.length ∧
        sess'.total_turns = sess.total_turns + N := by
  intro N
  induction N with
  | zero =>
    intro mgr sess h hidx
    rw [iterateProcess]
    exact ⟨sess, h, rfl, rfl, by rw [Nat.add_zero, Nat.mod_eq_of_lt hidx], rfl⟩
  | succ n ih =>
    intro mgr sess h hidx
    obtain ⟨sess1, ts, res, hkey, hgt, htslen, htsall, hidx1, htot, hto, hap, hst, hvm⟩ :=
      process_step_spec pname act dlg (uuid n) (rng n) (rngDM n) h
    have hget1 : get_session (process_player_action mgr sid pname act dlg
        (uuid n) (rng n) (rngDM n)).1 sid = some sess1 := by
      rw [hkey]
      exact get_setSession_self h
    have hidx1lt : sess1.current_turn_index < sess1.turn_order.length := by
      rw [hidx1, hto]
      exact Nat.mod_lt _ (by omega)
    obtain ⟨sess', hg, hto', hap', hidx', htot'⟩ := ih _ sess1 hget1 hidx1lt
    rw [iterateProcess]
    refine ⟨sess', hg, ?_, ?_, ?_, ?_⟩
    · rw [hto', hto]
    · rw [hap', hap]
    · rw [hidx', hidx1, hto, Nat.mod_add_mod,
        show sess.current_turn_index + 1 + n = sess.current_turn_index + (n + 1)
          by omega]
    · rw [htot', htot]
      omega

/-- C2.  For every existing session, each processed human action appends
exactly one human turn record plus exactly one turn record per companion in
the session, advances the current turn index by exactly one modulo the
turn-order length, and increments the turn counter by exactly one; hence after
`N` `processTurn` calls on a fresh session the current turn index equals `N`
modulo the turn-order length and the turn counter equals `N`. -/
theorem C2_process_turn_accounting (mgr : Manager) (sid pname act dlg : String)
    (uuid : Nat → String) (rng rngDM : Nat → Nat) (sess : MultiplayerSession)
    (h : get_session mgr sid = some sess) :
    (∃ (sess' : MultiplayerSession) (ts : List GameTurn) (res : ProcessResult),
      process_player_action mgr sid pname act dlg uuid rng rngDM =
        (setSession mgr sid sess', some res) ∧
      sess'.game_turns = sess.game_turns ++
        ({ turn_id := uuid 0, player_name := pname, player_type := .human,
           action := act, dialogue := dlg } :: ts) ∧
      ts.length = sess.ai_players.length ∧
      (∀ t ∈ ts, t.player_type = .ai) ∧
      sess'.current_turn_index =
        (sess.current_turn_index + 1) % sess.turn_order.length ∧
      sess'.total_turns = sess.total_turns + 1 ∧
      sess'.turn_order = sess.turn_order) ∧
    (∀ (human : String) (voice : Bool) (u : String) (rs : Nat → Nat) (rsc : Nat)
      (uuidN : Nat → Nat → String) (rngN rngDMN : Nat → Nat → Nat) (N : Nat),
      ∃ sessN : MultiplayerSession,
        get_session (iterateProcess u pname act dlg uuidN rngN rngDMN N
          (create_session mgr human voice u rs rsc).1) u = some sessN ∧
        sessN.turn_order.length = get_ai_players.length + 1 ∧
        sessN.current_turn_index = N % sessN.turn_order.length ∧
        sessN.total_turns = N) := by
  constructor
  · obtain ⟨sess', ts, res, hkey, hgt, htslen, htsall, hidx, htot, hto, -, -, -⟩ :=
      process_step_spec pname act dlg uuid rng rngDM h
    exact ⟨sess', ts, res, hkey, hgt, htslen, htsall, hidx, htot, hto⟩
  · intro human voice u rs rsc uuidN rngN rngDMN N
    have hfresh := get_create_session mgr human voice u rs rsc
    have hidx0 : (create_session mgr human voice u rs rsc).2.current_turn_index <
        (create_session mgr human voice u rs rsc).2.turn_order.length := by
      show 0 < 5
      omega
    obtain ⟨sessN, hg, hto', hap', hidx', htot'⟩ :=
      iterate_invariant u pname act dlg uuidN rngN rngDMN N _ _ hfresh hidx0
    have hcidx : (create_session mgr human voice u rs rsc).2.current_turn_index = 0 := rfl
    have hctot : (create_session mgr human voice u rs rsc).2.total_turns = 0 := rfl
    have hcto : (create_session mgr human voice u rs rsc).2.turn_order.length = 5 := rfl
    refine ⟨sessN, hg, ?_, ?_, ?_⟩
    · rw [hto', hcto]
      rfl
    · rw [hidx', hto', hcidx, Nat.zero_add]
    · rw [htot', hctot, Nat.zero_add]

/-- Witness for C2 on a concrete one-session store. -/
theorem C2_process_turn_accounting_witness :
    get_session [("s1", { session_id := "s1", human_player_name := "Aria",
                          ai_players := get_ai_players,
                          turn_order := "Aria" :: get_ai_players.map AIPlayer.name })]
        "s1" =
      some { session_id := "s1", human_player_name := "Aria",
             ai_players := get_ai_players,
             turn_order := "Aria" :: get_ai_players.map AIPlayer.name } ∧
    (∃ (sess' : MultiplayerSession) (ts : List GameTurn) (res : ProcessResult),
      process_player_action
        [("s1", { session_id := "s1", human_player_name := "Aria",
                  ai_players := get_ai_players,
                  turn_order := "Aria" :: get_ai_players.map AIPlayer.name })]
        "s1" "Aria" "I attack the goblin" "" (fun _ => "t") (fun _ => 0)
        (fun _ => 0) =
        (setSession
          [("s1", { session_id := "s1", human_player_name := "Aria",
                    ai_players := get_ai_players,
                    turn_order := "Aria" :: get_ai_players.map AIPlayer.name })]
          "s1" sess', some res) ∧
      sess'.game_turns =
        ({ session_id := "s1", human_player_name := "Aria",
           ai_players := get_ai_players,
           turn_order := "Aria" :: get_ai_players.map AIPlayer.name }
          : MultiplayerSession).game_turns ++
        ({ turn_id := "t", player_name := "Aria", player_type := .human,
           action := "I attack the goblin", dialogue := "" } :: ts) ∧
      ts.length = get_ai_players.length ∧
      (∀ t ∈ ts, t.player_type = .ai) ∧
      sess'.current_turn_index = 1 % 5 ∧
      sess'.total_turns = 1 ∧
      sess'.turn_order = "Aria" :: get_ai_players.map AIPlayer.name) := by
  refine ⟨by decide, ?_⟩
  exact (C2_process_turn_accounting
    [("s1", { session_id := "s1", human_player_name := "Aria",
              ai_players := get_ai_players,
              turn_order := "Aria" :: get_ai_players.map AIPlayer.name })]
    "s1" "Aria" "I attack the goblin" "" (fun _ => "t") (fun _ => 0) (fun _ => 0)
    { session_id := "s1", human_player_name := "Aria",
      ai_players := get_ai_players,
      turn_order := "Aria" :: get_ai_players.map AIPlayer.name }
    (by decide)).1

theorem update_world_tension_fields (ws : WorldState) (v : Option String) :
    (update_world_tension ws v).magical_activity = ws.magical_activity ∧
    (update_world_tension ws v).economic_state = ws.economic_state ∧
    (0 ≤ ws.political_tension → ws.political_tension ≤ 1 →
      0 ≤ (update_world_tension ws v).political_tension ∧
      (update_world_tension ws v).political_tension ≤ 1) := by
  rw [update_world_tension]
  by_cases h1 : (v == some "increase") = true
  · rw [if_pos h1]
    refine ⟨rfl, rfl, fun h0 hl => ⟨?_, ?_⟩⟩
    · exact le_min (by norm_num) (by linarith)
    · exact min_le_left _ _
  · rw [if_neg h1]
    by_cases h2 : (v == some "reduce") = true
    · rw [if_pos h2]
      refine ⟨rfl, rfl, fun h0 hl => ⟨?_, ?_⟩⟩
      · exact le_max_left _ _
      · exact max_le (by norm_num) (by linarith)
    · rw [if_neg h2]
      exact ⟨rfl, rfl, fun h0 hl => ⟨h0, hl⟩⟩

theorem foldl_update_world_tension (l : List (Option String)) :
    ∀ ws : WorldState, 0 ≤ ws.political_tension → ws.political_tension ≤ 1 →
      (0 ≤ (l.foldl update_world_tension ws).political_tension ∧
        (l.foldl update_world_tension ws).political_tension ≤ 1) ∧
      (l.foldl update_world_tension ws).magical_activity = ws.magical_activity ∧
      (l.foldl update_world_tension ws).economic_state = ws.economic_state := by
  induction l with
  | nil =>
    intro ws h0 h1
    exact ⟨⟨h0, h1⟩, rfl, rfl⟩
  | cons v t ih =>
    intro ws h0 h1
    rw [List.foldl_cons]
    obtain ⟨hm, he, hb⟩ := update_world_tension_fields ws v
    obtain ⟨hpt0, hpt1⟩ := hb h0 h1
    obtain ⟨hbb, hm', he'⟩ := ih _ hpt0 hpt1
    exact ⟨hbb, by rw [hm', hm], by rw [he', he]⟩

/-- C5.  Each tension-adjustment verdict nudges the political-tension pressure
scalar by the fixed step ±0.1 clamped to `[0, 1]` (all other verdicts,
including `"maintain"`, leave the world state unchanged; the magical-activity
and economic-state scalars are never moved from their initial values), so
after arbitrarily many cycles every pressure scalar remains in `[0, 1]`. -/
theorem C5_pressure_scalars_stay_bounded (verdicts : List (Option String)) :
    (0 ≤ (verdicts.foldl update_world_tension initialize_world_state).political_tension ∧
      (verdicts.foldl update_world_tension initialize_world_state).political_tension ≤ 1) ∧
    ((verdicts.foldl update_world_tension initialize_world_state).magical_activity = 4/10 ∧
      0 ≤ (4 : ℚ)/10 ∧ (4 : ℚ)/10 ≤ 1) ∧
    ((verdicts.foldl update_world_tension initialize_world_state).economic_state = 6/10 ∧
      0 ≤ (6 : ℚ)/10 ∧ (6 : ℚ)/10 ≤ 1) ∧
    (∀ ws : WorldState,
      (update_world_tension ws (some "increase")).political_tension =
        min 1 (ws.political_tension + 1/10) ∧
      (update_world_tension ws (some "reduce")).political_tension =
        max 0 (ws.political_tension - 1/10) ∧
      (∀ v : Option String, v ≠ some "increase" → v ≠ some "reduce" →
        update_world_tension ws v = ws)) := by
  obtain ⟨hb, hm, he⟩ := foldl_update_world_tension verdicts initialize_world_state
    (by norm_num [initialize_world_state]) (by norm_num [initialize_world_state])
  refine ⟨hb, ⟨hm, by norm_num, by norm_num⟩, ⟨he, by norm_num, by norm_num⟩, ?_⟩
  intro ws
  refine ⟨rfl, ?_, ?_⟩
  · rw [update_world_tension, if_neg (by decide), if_pos (by decide)]
  · intro v hv1 hv2
    rw [update_world_tension, if_neg (by simp [hv1]), if_neg (by simp [hv2])]

/-- Witness for C5: the no-op of an unrecognized verdict, exercised at the
initial world state. -/
theorem C5_pressure_scalars_stay_bounded_witness :
    (some "maintain" : Option String) ≠ some "increase" ∧
    (some "maintain" : Option String) ≠ some "reduce" ∧
    update_world_tension initialize_world_state (some "maintain") =
      initialize_world_state := by
  refine ⟨by decide, by decide, ?_⟩
  exact ((C5_pressure_scalars_stay_bounded []).2.2.2 initialize_world_state).2.2
    (some "maintain") (by decide) (by decide)

theorem smoothField_bounded (floatOfStr : String → Option ℚ) {old : ℚ}
    (h0 : 0 ≤ old) (h1 : old ≤ 1) (v : Option AnalysisValue)
    (hnt : ∀ s, v ≠ some (.text s))
    (hnum : ∀ q, v = some (.num q) → 0 ≤ q ∧ q ≤ 1) :
    ∃ r, smoothField floatOfStr (1/5) old v = some r ∧ 0 ≤ r ∧ r ≤ 1 := by
  cases v with
  | none => exact ⟨old, rfl, h0, h1⟩
  | some av =>
    cases av with
    | num q =>
      obtain ⟨hq0, hq1⟩ := hnum q rfl
      refine ⟨old * (1 - 1/5) + q * (1/5), rfl, by nlinarith, by nlinarith⟩
    | text s => exact absurd rfl (hnt s)
    | other =>
      refine ⟨old * (1 - 1/5) + (1/2) * (1/5), rfl, by nlinarith, by nlinarith⟩

theorem playStyleStep_numeric (m : PlayerBehaviorModel) (v : Option AnalysisValue) :
    (playStyleStep m v).risk_tolerance = m.risk_tolerance ∧
    (playStyleStep m v).character_attachment = m.character_attachment ∧
    (playStyleStep m v).interaction_frequency = m.interaction_frequency := by
  cases v with
  | none => exact ⟨rfl, rfl, rfl⟩
  | some av =>
    cases av <;> simp only [playStyleStep] <;> split <;> exact ⟨rfl, rfl, rfl⟩

/-- C6 counterexample.  The rich analysis tier normalizes only *string*
values; a numeric value in the collaborator's JSON passes through unclamped.
With the record `{"risk_tolerance": 5}` (a legal rich-tier output) the update
computes `0.5 * 0.8 + 5 * 0.2 = 1.4`, leaving the behavior model's risk
tolerance outside `[0, 1]`. -/
theorem C6_counterexample_unclamped_rich_numeric :
    richTier { risk_tolerance := some (.num 5) } =
      { risk_tolerance := some (.num 5) } ∧
    _update_player_behavior_model (fun _ => none) {}
        (richTier { risk_tolerance := some (.num 5) }) =
      some { risk_tolerance := 7/5 } ∧
    ¬ ((7 : ℚ)/5 ≤ 1) := by
  refine ⟨rfl, ?_, by norm_num⟩
  norm_num [richTier, _normalize_analysis_values, normalizeValue,
    _update_player_behavior_model, playStyleStep, smoothField, observedValue,
    bind, Option.bind, pure]

/-- C6 (amended).  A behavior-model update keeps risk tolerance, character
attachment and interaction frequency in `[0, 1]` provided the analysis
record's values for those three keys are numeric values in `[0, 1]` (or
absent, or of non-numeric non-string type, which falls back to 0.5).  Every
fallback-tier record satisfies this (its three values are 0.7/0.4, 0.5 and
0.6), so fallback updates always preserve the invariant; rich-tier records
need not satisfy it, since numeric JSON values pass through normalization
unclamped — see the counterexample. -/
theorem C6_behavior_model_stays_bounded (floatOfStr : String → Option ℚ)
    (m : PlayerBehaviorModel) (a : Analysis) (m' : PlayerBehaviorModel)
    (hm1 : 0 ≤ m.risk_tolerance ∧ m.risk_tolerance ≤ 1)
    (hm2 : 0 ≤ m.character_attachment ∧ m.character_attachment ≤ 1)
    (hm3 : 0 ≤ m.interaction_frequency ∧ m.interaction_frequency ≤ 1)
    (ha1t : ∀ s, a.risk_tolerance ≠ some (.text s))
    (ha1n : ∀ q, a.risk_tolerance = some (.num q) → 0 ≤ q ∧ q ≤ 1)
    (ha2t : ∀ s, a.character_attachment ≠ some (.text s))
    (ha2n : ∀ q, a.character_attachment = some (.num q) → 0 ≤ q ∧ q ≤ 1)
    (ha3t : ∀ s, a.interaction_level ≠ some (.text s))
    (ha3n : ∀ q, a.interaction_level = some (.num q) → 0 ≤ q ∧ q ≤ 1)
    (hu : _update_player_behavior_model floatOfStr m a = some m') :
    ((0 ≤ m'.risk_tolerance ∧ m'.risk_tolerance ≤ 1) ∧
      (0 ≤ m'.character_attachment ∧ m'.character_attachment ≤ 1) ∧
      (0 ≤ m'.interaction_frequency ∧ m'.interaction_frequency ≤ 1)) ∧
    (∀ input : String,
      (∀ s, (_basic_input_analysis input).risk_tolerance ≠ some (.text s)) ∧
      (∀ q, (_basic_input_analysis input).risk_tolerance = some (.num q) →
        0 ≤ q ∧ q ≤ 1) ∧
      (∀ s, (_basic_input_analysis input).character_attachment ≠ some (.text s)) ∧
      (∀ q, (_basic_input_analysis input).character_attachment = some (.num q) →
        0 ≤ q ∧ q ≤ 1) ∧
      (∀ s, (_basic_input_analysis input).interaction_level ≠ some (.text s)) ∧
      (∀ q, (_basic_input_analysis input).interaction_level = some (.num q) →
        0 ≤ q ∧ q ≤ 1)) := by
  constructor
  · obtain ⟨hp1, hp2, hp3⟩ := playStyleStep_numeric m a.play_style
    obtain ⟨rt, hrt, hrt0, hrt1⟩ := smoothField_bounded floatOfStr
      (hp1 ▸ hm1.1) (hp1 ▸ hm1.2) a.risk_tolerance ha1t ha1n
    obtain ⟨ca, hca, hca0, hca1⟩ := smoothField_bounded floatOfStr
      (hp2 ▸ hm2.1) (hp2 ▸ hm2.2) a.character_attachment ha2t ha2n
    obtain ⟨il, hil, hil0, hil1⟩ := smoothField_bounded floatOfStr
      (hp3 ▸ hm3.1) (hp3 ▸ hm3.2) a.interaction_level ha3t ha3n
    rw [_update_player_behavior_model] at hu
    simp only [bind, Option.bind, hrt, hca, hil, pure, Option.some.injEq] at hu
    subst hu
    exact ⟨⟨hrt0, hrt1⟩, ⟨hca0, hca1⟩, ⟨hil0, hil1⟩⟩
  · intro input
    rw [_basic_input_analysis]
    refine ⟨by simp, ?_, by simp, ?_, by simp, ?_⟩
    · intro q hq
      simp only [Option.some.injEq, AnalysisValue.num.injEq] at hq
      rw [← hq]
      split <;> norm_num
    · intro q hq
      simp only [Option.some.injEq, AnalysisValue.num.injEq] at hq
      rw [← hq]
      norm_num
    · intro q hq
      simp only [Option.some.injEq, AnalysisValue.num.injEq] at hq
      rw [← hq]
      norm_num

/-- Witness for C6 (amended): an update of the default model with a concrete
in-range analysis record is the identity on the three bounded attributes. -/
theorem C6_behavior_model_stays_bounded_witness :
    (0 ≤ ({} : PlayerBehaviorModel).risk_tolerance ∧
      ({} : PlayerBehaviorModel).risk_tolerance ≤ 1) ∧
    _update_player_behavior_model (fun _ => none) {}
        { risk_tolerance := some (.num (1/2)), character_attachment := some .other } =
      some {} ∧
    ((0 ≤ ({} : PlayerBehaviorModel).risk_tolerance ∧
        ({} : PlayerBehaviorModel).risk_tolerance ≤ 1) ∧
      (0 ≤ ({} : PlayerBehaviorModel).character_attachment ∧
        ({} : PlayerBehaviorModel).character_attachment ≤ 1) ∧
      (0 ≤ ({} : PlayerBehaviorModel).interaction_frequency ∧
        ({} : PlayerBehaviorModel).interaction_frequency ≤ 1)) := by
  have hu : _update_player_behavior_model (fun _ => none) {}
      { risk_tolerance := some (.num (1/2)), character_attachment := some .other } =
      some {} := by
    norm_num [_update_player_behavior_model, playStyleStep, smoothField,
      observedValue, bind, Option.bind, pure]
  have happ := C6_behavior_model_stays_bounded (fun _ => none) {}
    { risk_tolerance := some (.num (1/2)), character_attachment := some .other }
    {} (by norm_num) (by norm_num) (by norm_num)
    (by intro s; simp)
    (by intro q hq; simp only [Option.some.injEq, AnalysisValue.num.injEq] at hq
        rw [← hq]; norm_num)
    (by intro s; simp)
    (by intro q hq; simp at hq)
    (by intro s; simp)
    (by intro q hq; simp at hq)
    hu
  exact ⟨by norm_num, hu, happ.1⟩

end AIDM
